import Mathlib

set_option maxHeartbeats 1000000

/-!
Shallow embedding of gtk/gtktim2sortmodel.c (GtkTim2SortModel), an
incrementally sorting list model.  Items and object references are modelled
as numeric identifiers; the growable SortArray is modelled as a Lean list;
guint arithmetic is modelled as Nat with explicit mod 2^32 at the places
where the C code can wrap around.  The resumable tim-sort engine
(gtktimsortprivate.h) is not part of the sources; its per-step behaviour is
abstracted per the specification: a step either reports more work (and may
stably reorder the store, modelled as an arbitrary permutation supplied by
the scheduler event) or reports completion.
-/

/-- An entry of the indexed value store: an owned item reference (modelled as
a numeric identifier) together with the item's index in the backing sequence
as of the last reconciliation.  This is struct SortItem in the C source. -/
structure SortItem where
  item : Nat
  position : Nat
deriving DecidableEq

/-- The backing list model (GListModel): an identity plus its current
contents.  Reference equality of GObject pointers is modelled as equality of
the whole structure (an identity determines one object, which has one
current content list). -/
structure BackingModel where
  id : Nat
  items : List Nat
deriving DecidableEq

/-- The sorter (GtkSorter): an identity plus whether gtk_sorter_get_order
returns an order other than GTK_SORTER_ORDER_NONE.  The compare function is
never needed by the reconciliation logic modelled here. -/
structure Sorter where
  id : Nat
  hasOrder : Bool
deriving DecidableEq

/-- The properties of the model that can be notified. -/
inductive PropId where
  | model
  | sorter
  | sorting
deriving DecidableEq

/-- Observable operations emitted while handling an event, in program order:
items-changed signals, property notifications, structural store mutations
(entries removed/shifted/appended/cleared), and sort-session start/stop. -/
inductive Op where
  | itemsChanged (position removed added : Nat)
  | propNotify (p : PropId)
  | storeMutate
  | startSort
  | stopSort
deriving DecidableEq

/-- The state of a GtkTim2SortModel: backing model, sorter, the indexed
value store (SortArray items), whether a sort callback is scheduled
(sort_cb != 0), and the already-sorted hint the current GtkTimSort session
was initialized with. -/
structure ModelState where
  model : Option BackingModel
  sorter : Option Sorter
  items : List SortItem
  sorting : Bool
  alreadySorted : Nat
deriving DecidableEq

/-- The state of a freshly constructed model before any property is set. -/
def initState : ModelState :=
  { model := none, sorter := none, items := [], sorting := false, alreadySorted := 0 }

/-- Modulus of the C guint type. -/
def U32 : Nat := 4294967296

/-- Unsigned 32-bit subtraction a - b as performed on guint values. -/
def sub32 (a b : Nat) : Nat := (a + U32 - b % U32) % U32

/-- Unsigned 32-bit addition as performed on guint values. -/
def add32 (a b : Nat) : Nat := (a + b) % U32

/-- Whether the entry's recorded backing position falls in the removed
window [p, p + r) of a backing edit. -/
def isRemoved (p r : Nat) (si : SortItem) : Bool :=
  decide (p ≤ si.position) && decide (si.position < p + r)

/-- The per-entry result of one reconciliation scan (specification-side
description of the scan in gtk_tim2_sort_model_remove_items): entries in the
removed window are dropped, entries at or above the window are shifted by
added - removed, entries below the window are kept unchanged. -/
def survivorFn (p r a : Nat) (si : SortItem) : Option SortItem :=
  if p + r ≤ si.position then some { item := si.item, position := si.position - r + a }
  else if p ≤ si.position then none
  else some si

/-- Length of the maximal store segment at the front untouched by any removed
entry. -/
def vstart (p r : Nat) (store : List SortItem) : Nat :=
  (store.takeWhile (fun si => !isRemoved p r si)).length

/-- Length of the maximal store segment at the back untouched by any removed
entry. -/
def vend (p r : Nat) (store : List SortItem) : Nat :=
  (store.reverse.takeWhile (fun si => !isRemoved p r si)).length

/-- The loop of gtk_tim2_sort_model_remove_items.  The C code scans the
array once with index i, compacting survivors in place at index valid
(valid ≤ i always holds, so the in-place writes never overwrite an entry
that has not been read yet; building the output list in order is therefore
a faithful model).  start is MIN-accumulated over the compaction index at
each drop, end is overwritten with n - i - 1 at each drop, and the items of
dropped entries are released (collected here).  Arguments after the list:
current index i, compaction index valid, current start, current end. -/
def removeItemsGo (p r a n : Nat) :
    List SortItem → Nat → Nat → Nat → Nat → List SortItem × Nat × Nat × List Nat
  | [], _, _, start, stop => ([], start, stop, [])
  | si :: rest, i, valid, start, stop =>
    if p + r ≤ si.position then
      let out := removeItemsGo p r a n rest (i + 1) (valid + 1) start stop
      (({ item := si.item, position := si.position - r + a } : SortItem) :: out.1,
        out.2.1, out.2.2.1, out.2.2.2)
    else if p ≤ si.position then
      let out := removeItemsGo p r a n rest (i + 1) valid (min start valid) (n - i - 1)
      (out.1, out.2.1, out.2.2.1, si.item :: out.2.2.2)
    else
      let out := removeItemsGo p r a n rest (i + 1) (valid + 1) start stop
      (si :: out.1, out.2.1, out.2.2.1, out.2.2.2)

/-- gtk_tim2_sort_model_remove_items: one reconciliation scan of the store
for a backing edit (p, r, a).  Returns the compacted store, the unmodified
start band, the unmodified end band, and the released item references. -/
def removeItems (p r a : Nat) (store : List SortItem) :
    List SortItem × Nat × Nat × List Nat :=
  removeItemsGo p r a store.length store 0 0 store.length store.length

/-- gtk_tim2_sort_model_should_sort: a sorter and a model are present and
the sorter reports an order other than GTK_SORTER_ORDER_NONE. -/
def should_sort (s : ModelState) : Bool :=
  match s.sorter, s.model with
  | some so, some _ => so.hasOrder
  | _, _ => false

/-- Number of items the model exposes (gtk_tim2_sort_model_get_n_items):
delegates to the backing model, 0 without one. -/
def get_n_items (s : ModelState) : Nat :=
  match s.model with
  | none => 0
  | some m => m.items.length

/-- The backing sequence's contents, empty without a model. -/
def backingItems (s : ModelState) : List Nat :=
  match s.model with
  | none => []
  | some m => m.items

/-- gtk_tim2_sort_model_get_item: NULL without a model; direct backing
lookup when the store is empty (pass-through); store lookup otherwise, NULL
for positions at or beyond the store size. -/
def get_item (s : ModelState) (position : Nat) : Option Nat :=
  match s.model with
  | none => none
  | some m =>
    if s.items.isEmpty then m.items[position]?
    else if s.items.length ≤ position then none
    else (s.items[position]?).map SortItem.item

/-- Item lookup in the backing model (g_list_model_get_item on self->model),
with NULL modelled as 0; only used at indices the edit contract keeps in
range. -/
def backing_get (s : ModelState) (i : Nat) : Nat :=
  match s.model with
  | some m => m.items.getD i 0
  | none => 0

/-- gtk_tim2_sort_model_stop_sorting: if a sort callback is scheduled,
finish the tim sort, remove the callback and notify the sorting property. -/
def stop_sorting (s : ModelState) : ModelState × List Op :=
  if s.sorting then ({ s with sorting := false }, [Op.stopSort, Op.propNotify PropId.sorting])
  else (s, [])

/-- gtk_tim2_sort_model_start_sorting: if no sort callback is scheduled,
schedule one and notify the sorting property. -/
def start_sorting (s : ModelState) : ModelState × List Op :=
  if s.sorting then (s, [])
  else ({ s with sorting := true }, [Op.startSort, Op.propNotify PropId.sorting])

/-- gtk_tim2_sort_model_clear_items: stop sorting, then clear the store
(releasing every entry; the mutation op is emitted only when entries exist,
since clearing an empty array releases nothing). -/
def clear_items (s : ModelState) : ModelState × List Op :=
  let st := stop_sorting s
  ({ st.1 with items := [] },
    st.2 ++ if st.1.items.isEmpty then [] else [Op.storeMutate])

/-- gtk_tim2_sort_model_create_items: when sorting should happen, append one
entry per backing item, recording its backing position. -/
def create_items (s : ModelState) : ModelState × List Op :=
  if should_sort s then
    match s.model with
    | some m =>
      ({ s with items :=
           s.items ++ m.items.enum.map (fun q => ({ item := q.2, position := q.1 } : SortItem)) },
        if m.items.isEmpty then [] else [Op.storeMutate])
    | none => (s, [])
  else (s, [])

/-- gtk_tim2_sort_model_resort: if a sort is ongoing, distrust the hint and
stop it; then initialize a new tim sort over the store with the hint and
start sorting. -/
def resort (s : ModelState) (alreadySorted : Nat) : ModelState × List Op :=
  let hint := if s.sorting then 0 else alreadySorted
  let st := stop_sorting s
  let s2 := { st.1 with alreadySorted := hint }
  let st2 := start_sorting s2
  (st2.1, st.2 ++ st2.2)

/-- gtk_tim2_sort_model_items_changed_cb, after the backing model already
carries the edit (position, removed, added): no-op for an empty edit;
plain forwarding when sorting is degraded; otherwise stop sorting,
reconcile the store, append the new backing items, resort when necessary,
and emit the computed range notification (guint arithmetic). -/
def items_changed_cb (s : ModelState) (position removed added : Nat) :
    ModelState × List Op :=
  if removed = 0 ∧ added = 0 then (s, [])
  else if should_sort s = false then (s, [Op.itemsChanged position removed added])
  else
    let was := s.sorting
    let st1 := stop_sorting s
    let rem := removeItems position removed added st1.1.items
    let s2 := { st1.1 with items := rem.1 }
    let start := rem.2.1
    let stop := rem.2.2.1
    let st3 :=
      if 0 < added then
        let newEntries := (List.range added).map
          (fun k => ({ item := backing_get s2 (position + k), position := position + k } : SortItem))
        let s2' := { s2 with items := s2.items ++ newEntries }
        let r := resort s2' (if was then 0 else s2'.items.length - added)
        (r.1, Op.storeMutate :: r.2)
      else if was then resort s2 0
      else (s2, [])
    let n := sub32 (sub32 st3.1.items.length start) stop
    (st3.1,
      st1.2 ++ [Op.storeMutate] ++ st3.2 ++ [Op.itemsChanged start (add32 (sub32 n added) removed) n])

/-- gtk_tim2_sort_model_clear_model: disconnect and drop the backing model,
then clear the store. -/
def clear_model (s : ModelState) : ModelState × List Op :=
  match s.model with
  | none => (s, [])
  | some _ => clear_items { s with model := none }

/-- gtk_tim2_sort_model_sorter_changed_cb: when the sorter reports no order
the store is cleared; when the store is empty it is rebuilt; a resort with
hint 0 always follows, and a full-range notification is emitted when more
than one item is exposed. -/
def sorter_changed_cb (s : ModelState) : ModelState × List Op :=
  let orderNone := match s.sorter with
    | some so => !so.hasOrder
    | none => true
  let st1 :=
    if orderNone then clear_items s
    else if s.items.isEmpty then create_items s
    else (s, [])
  let st2 := resort st1.1 0
  let n := get_n_items st2.1
  (st2.1, st1.2 ++ st2.2 ++ if 1 < n then [Op.itemsChanged 0 n n] else [])

/-- gtk_tim2_sort_model_set_model: no-op when the same reference is
assigned; otherwise clear the old model, install the new one, rebuild and
resort, emit the length-change notification and notify the model
property. -/
def set_model (s : ModelState) (m : Option BackingModel) : ModelState × List Op :=
  if s.model = m then (s, [])
  else
    let removed := get_n_items s
    let st1 := clear_model s
    let st2 :=
      match m with
      | some mm =>
        let s2 := { st1.1 with model := some mm }
        let c := create_items s2
        let r := resort c.1 0
        (r.1, mm.items.length, c.2 ++ r.2)
      | none => (st1.1, 0, [])
    let added := st2.2.1
    (st2.1,
      st1.2 ++ st2.2.2 ++
        (if 0 < removed ∨ 0 < added then [Op.itemsChanged 0 removed added] else []) ++
        [Op.propNotify PropId.model])

/-- gtk_tim2_sort_model_clear_sorter: disconnect and drop the sorter, then
clear the store. -/
def clear_sorter (s : ModelState) : ModelState × List Op :=
  match s.sorter with
  | none => (s, [])
  | some _ => clear_items { s with sorter := none }

/-- gtk_tim2_sort_model_set_sorter: unconditionally clear the old sorter;
with a new sorter run the sorter-changed handler, without one emit a
full-range notification when more than one item is exposed; always notify
the sorter property. -/
def set_sorter (s : ModelState) (so : Option Sorter) : ModelState × List Op :=
  let st1 := clear_sorter s
  match so with
  | some sorter =>
    let st2 := sorter_changed_cb { st1.1 with sorter := some sorter }
    (st2.1, st1.2 ++ st2.2 ++ [Op.propNotify PropId.sorter])
  | none =>
    let n := get_n_items st1.1
    (st1.1,
      st1.2 ++ (if 1 < n then [Op.itemsChanged 0 n n] else []) ++ [Op.propNotify PropId.sorter])

/-- gtk_tim2_sort_model_sort_cb, one scheduler tick.  Modelled from the
spec: gtk_tim_sort_step (gtktimsortprivate.h, not among the sources) is
abstracted as reporting whether more work remains; when it does, the step
has stably reordered the store (newStore, a permutation) and a full-range
notification is emitted; otherwise sorting stops. -/
def sort_cb (s : ModelState) (newStore : List SortItem) (hasMore : Bool) :
    ModelState × List Op :=
  if hasMore then
    let s1 := { s with items := newStore }
    (s1, [Op.itemsChanged 0 s1.items.length s1.items.length])
  else stop_sorting s

/-- The external events driving the model: property assignment of model and
sorter, a changed signal from the connected sorter carrying its new order
state, an edit notification from the connected backing model carrying the
added items, and one scheduler tick of the sort callback. -/
inductive Event where
  | setModel (m : Option BackingModel)
  | setSorter (so : Option Sorter)
  | sorterChanged (newOrder : Bool)
  | itemsChanged (position removed : Nat) (newItems : List Nat)
  | sortTick (newStore : List SortItem) (hasMore : Bool)
deriving DecidableEq

/-- Apply a backing edit to the backing model's own contents (the edit
contract of GListModel: the ranges outside [position, position + removed)
are untouched). -/
def applyBackingEdit (m : BackingModel) (p r : Nat) (new : List Nat) : BackingModel :=
  { m with items := m.items.take p ++ new ++ m.items.drop (p + r) }

/-- One event dispatch.  For an edit the backing model is updated first
(the signal arrives after the backing sequence changed), then the handler
runs; a sorter-changed signal updates the sorter's order state first. -/
def step (s : ModelState) : Event → ModelState × List Op
  | Event.setModel m => set_model s m
  | Event.setSorter so => set_sorter s so
  | Event.sorterChanged b =>
    match s.sorter with
    | some so => sorter_changed_cb { s with sorter := some { so with hasOrder := b } }
    | none => (s, [])
  | Event.itemsChanged p r new =>
    match s.model with
    | some m => items_changed_cb { s with model := some (applyBackingEdit m p r new) } p r new.length
    | none => (s, [])
  | Event.sortTick ns more => if s.sorting then sort_cb s ns more else (s, [])

/-- Which events can actually occur in a given state: sorter signals only
from a connected sorter, edits only from a connected model and honouring
the GListModel edit contract, ticks only while a callback is scheduled, a
tick's reordering being a permutation, and a completion tick changing
nothing. -/
def validEvent (s : ModelState) : Event → Bool
  | Event.setModel _ => true
  | Event.setSorter _ => true
  | Event.sorterChanged _ => s.sorter.isSome
  | Event.itemsChanged p r _ =>
    match s.model with
    | some m => decide (p + r ≤ m.items.length)
    | none => false
  | Event.sortTick ns more =>
    s.sorting && decide (ns.Perm s.items) && (more || decide (ns = s.items))

/-- States reachable from construction by valid events (construction with
initial model and sorter is the event sequence setModel, setSorter). -/
inductive Reachable : ModelState → Prop where
  | init : Reachable initState
  | next (s : ModelState) (e : Event) : Reachable s → validEvent s e = true →
      Reachable (step s e).1

/-- Checks a trace of operations starting from a given session flag: every
structural store mutation must happen while no sort session is active, and
a session may only start when none is active. -/
def traceSafe : Bool → List Op → Bool
  | _, [] => true
  | sorting, op :: rest =>
    match op with
    | Op.startSort => !sorting && traceSafe true rest
    | Op.stopSort => traceSafe false rest
    | Op.storeMutate => !sorting && traceSafe sorting rest
    | _ => traceSafe sorting rest

/-- Keep only the items-changed notifications of a trace. -/
def itemsChangedOps (ops : List Op) : List Op :=
  ops.filter (fun op => match op with
    | Op.itemsChanged _ _ _ => true
    | _ => false)

/-- Keep only the outward notifications (items-changed and property
notifications) of a trace. -/
def notifOps (ops : List Op) : List Op :=
  ops.filter (fun op => match op with
    | Op.itemsChanged _ _ _ => true
    | Op.propNotify _ => true
    | _ => false)

/-- The store invariant tied to reconciliation: while sorting should
happen, the recorded backing positions are exactly a permutation of the
backing index range; otherwise the store is empty (pass-through). -/
def StoreInv (s : ModelState) : Prop :=
  (should_sort s = true →
    (s.items.map SortItem.position).Perm (List.range (get_n_items s))) ∧
  (should_sort s = false → s.items = [])

/-! Characterization of the reconciliation scan. -/

lemma takeWhile_append_of_all {α : Type} (q : α → Bool) (l₁ l₂ : List α)
    (h : ∀ x ∈ l₁, q x = true) :
    (l₁ ++ l₂).takeWhile q = l₁ ++ l₂.takeWhile q := by
  induction l₁ with
  | nil => simp
  | cons x xs ih =>
    simp only [List.cons_append, List.takeWhile_cons, h x (by simp), if_true]
    rw [ih (fun y hy => h y (by simp [hy]))]

lemma takeWhile_append_of_any {α : Type} (q : α → Bool) (l₁ l₂ : List α)
    (h : l₁.any (fun x => !q x) = true) :
    (l₁ ++ l₂).takeWhile q = l₁.takeWhile q := by
  induction l₁ with
  | nil => simp at h
  | cons x xs ih =>
    by_cases hx : q x = true
    · have hxs : xs.any (fun x => !q x) = true := by
        simp only [List.any_cons, hx, Bool.not_true, Bool.false_or] at h
        exact h
      simp only [List.cons_append, List.takeWhile_cons, hx, if_true, ih hxs]
    · have hx' : q x = false := by revert hx; cases q x <;> simp
      simp [List.takeWhile_cons, hx']

lemma vstart_cons_kept (p r : Nat) (si : SortItem) (rest : List SortItem)
    (h : isRemoved p r si = false) :
    vstart p r (si :: rest) = vstart p r rest + 1 := by
  simp [vstart, List.takeWhile_cons, h]

lemma vstart_cons_rem (p r : Nat) (si : SortItem) (rest : List SortItem)
    (h : isRemoved p r si = true) :
    vstart p r (si :: rest) = 0 := by
  simp [vstart, List.takeWhile_cons, h]

lemma vend_cons_of_any (p r : Nat) (si : SortItem) (rest : List SortItem)
    (h : rest.any (isRemoved p r) = true) :
    vend p r (si :: rest) = vend p r rest := by
  have hrev : rest.reverse.any (fun x => !(!isRemoved p r x)) = true := by
    simp only [Bool.not_not, List.any_reverse]
    exact h
  simp only [vend, List.reverse_cons]
  rw [takeWhile_append_of_any _ _ _ hrev]

lemma vend_cons_rem_of_none (p r : Nat) (si : SortItem) (rest : List SortItem)
    (hsi : isRemoved p r si = true) (h : rest.any (isRemoved p r) = false) :
    vend p r (si :: rest) = rest.length := by
  have hall : ∀ x ∈ rest.reverse, (!isRemoved p r x) = true := by
    intro x hx
    rw [List.mem_reverse] at hx
    have : isRemoved p r x = false := by
      by_contra hc
      have : isRemoved p r x = true := by revert hc; cases isRemoved p r x <;> simp
      have := List.any_eq_true.mpr ⟨x, hx, this⟩
      rw [h] at this; exact absurd this (by simp)
    simp [this]
  simp only [vend, List.reverse_cons]
  rw [takeWhile_append_of_all _ _ _ hall]
  simp [List.takeWhile_cons, hsi]

lemma removeItemsGo_spec (p r a : Nat) (store : List SortItem) :
    ∀ (n i valid start stop : Nat), n = i + store.length →
    removeItemsGo p r a n store i valid start stop =
      (store.filterMap (survivorFn p r a),
       (if store.any (isRemoved p r) then min start (valid + vstart p r store) else start),
       (if store.any (isRemoved p r) then vend p r store else stop),
       (store.filter (isRemoved p r)).map SortItem.item) := by
  induction store with
  | nil =>
    intro n i valid start stop hn
    simp [removeItemsGo]
  | cons si rest ih =>
    intro n i valid start stop hn
    simp only [List.length_cons] at hn
    by_cases h1 : p + r ≤ si.position
    · have hrem : isRemoved p r si = false := by
        simp only [isRemoved, Bool.and_eq_false_iff]
        right; simp; omega
      have hsurv : survivorFn p r a si =
          some { item := si.item, position := si.position - r + a } := by
        simp [survivorFn, h1]
      rw [removeItemsGo, if_pos h1, ih n (i + 1) (valid + 1) start stop (by omega)]
      by_cases hany : rest.any (isRemoved p r) = true
      · have hanyc : (si :: rest).any (isRemoved p r) = true := by
          simp [List.any_cons, hany]
        rw [if_pos hany, if_pos hany, if_pos hanyc, if_pos hanyc]
        simp only [List.filterMap_cons, hsurv, List.filter_cons, hrem, List.map_cons,
          vstart_cons_kept p r si rest hrem, vend_cons_of_any p r si rest hany, Prod.mk.injEq]
        (repeat' apply And.intro) <;> first | rfl | omega | simp
      · have hany' : rest.any (isRemoved p r) = false := by
          revert hany; cases rest.any (isRemoved p r) <;> simp
        have hn' : ¬ (rest.any (isRemoved p r) = true) := by simp [hany']
        have hnc : ¬ ((si :: rest).any (isRemoved p r) = true) := by
          simp only [List.any_cons, hany', hrem, Bool.or_self]
          simp
        rw [if_neg hn', if_neg hn', if_neg hnc, if_neg hnc]
        simp only [List.filterMap_cons, hsurv, List.filter_cons, hrem, List.map_cons,
          Prod.mk.injEq]
        (repeat' apply And.intro) <;> first | rfl | omega | simp
    · by_cases h2 : p ≤ si.position
      · have hrem : isRemoved p r si = true := by
          simp only [isRemoved]
          simp; omega
        have hsurv : survivorFn p r a si = none := by
          simp [survivorFn, h1, h2]
        have hanyc : (si :: rest).any (isRemoved p r) = true := by
          simp [List.any_cons, hrem]
        rw [removeItemsGo, if_neg h1, if_pos h2,
          ih n (i + 1) valid (min start valid) (n - i - 1) (by omega)]
        by_cases hany : rest.any (isRemoved p r) = true
        · rw [if_pos hany, if_pos hany, if_pos hanyc, if_pos hanyc]
          simp only [List.filterMap_cons, hsurv, List.filter_cons, hrem, List.map_cons,
            vstart_cons_rem p r si rest hrem, vend_cons_of_any p r si rest hany, Prod.mk.injEq]
          (repeat' apply And.intro) <;> first | rfl | omega | simp
        · have hany' : rest.any (isRemoved p r) = false := by
            revert hany; cases rest.any (isRemoved p r) <;> simp
          have hn' : ¬ (rest.any (isRemoved p r) = true) := by simp [hany']
          rw [if_neg hn', if_neg hn', if_pos hanyc, if_pos hanyc]
          simp only [List.filterMap_cons, hsurv, List.filter_cons, hrem, List.map_cons,
            vstart_cons_rem p r si rest hrem,
            vend_cons_rem_of_none p r si rest hrem hany', Prod.mk.injEq]
          (repeat' apply And.intro) <;> first | rfl | omega | simp
      · have hrem : isRemoved p r si = false := by
          simp only [isRemoved, Bool.and_eq_false_iff]
          left; simp; omega
        have hsurv : survivorFn p r a si = some si := by
          simp [survivorFn, h1, h2]
        rw [removeItemsGo, if_neg h1, if_neg h2, ih n (i + 1) (valid + 1) start stop (by omega)]
        by_cases hany : rest.any (isRemoved p r) = true
        · have hanyc : (si :: rest).any (isRemoved p r) = true := by
            simp [List.any_cons, hany]
          rw [if_pos hany, if_pos hany, if_pos hanyc, if_pos hanyc]
          simp only [List.filterMap_cons, hsurv, List.filter_cons, hrem, List.map_cons,
            vstart_cons_kept p r si rest hrem, vend_cons_of_any p r si rest hany, Prod.mk.injEq]
          (repeat' apply And.intro) <;> first | rfl | omega | simp
        · have hany' : rest.any (isRemoved p r) = false := by
            revert hany; cases rest.any (isRemoved p r) <;> simp
          have hn' : ¬ (rest.any (isRemoved p r) = true) := by simp [hany']
          have hnc : ¬ ((si :: rest).any (isRemoved p r) = true) := by
            simp only [List.any_cons, hany', hrem, Bool.or_self]
            simp
          rw [if_neg hn', if_neg hn', if_neg hnc, if_neg hnc]
          simp only [List.filterMap_cons, hsurv, List.filter_cons, hrem, List.map_cons,
            Prod.mk.injEq]
          (repeat' apply And.intro) <;> first | rfl | omega | simp

lemma vstart_of_any_false (p r : Nat) (store : List SortItem)
    (h : store.any (isRemoved p r) = false) : vstart p r store = store.length := by
  have hall : ∀ x ∈ store, (!isRemoved p r x) = true := by
    intro x hx
    have : isRemoved p r x = false := by
      by_contra hc
      have hx' : isRemoved p r x = true := by revert hc; cases isRemoved p r x <;> simp
      have := List.any_eq_true.mpr ⟨x, hx, hx'⟩
      rw [h] at this; exact absurd this (by simp)
    simp [this]
  simp [vstart, List.takeWhile_eq_self_iff.mpr hall]

lemma vend_of_any_false (p r : Nat) (store : List SortItem)
    (h : store.any (isRemoved p r) = false) : vend p r store = store.length := by
  have hall : ∀ x ∈ store.reverse, (!isRemoved p r x) = true := by
    intro x hx
    rw [List.mem_reverse] at hx
    have : isRemoved p r x = false := by
      by_contra hc
      have hx' : isRemoved p r x = true := by revert hc; cases isRemoved p r x <;> simp
      have := List.any_eq_true.mpr ⟨x, hx, hx'⟩
      rw [h] at this; exact absurd this (by simp)
    simp [this]
  simp [vend, List.takeWhile_eq_self_iff.mpr hall]

lemma vstart_le_length (p r : Nat) (store : List SortItem) :
    vstart p r store ≤ store.length := by
  exact List.Sublist.length_le (List.takeWhile_sublist _)

lemma vend_le_length (p r : Nat) (store : List SortItem) :
    vend p r store ≤ store.length := by
  have := List.Sublist.length_le (List.takeWhile_sublist
    (l := store.reverse) (fun si => !isRemoved p r si))
  simpa [vend] using this

lemma vstart_lt_length_of_any (p r : Nat) (store : List SortItem)
    (h : store.any (isRemoved p r) = true) : vstart p r store < store.length := by
  induction store with
  | nil => simp at h
  | cons si rest ih =>
    by_cases hsi : isRemoved p r si = true
    · rw [vstart_cons_rem p r si rest hsi]; simp
    · have hsi' : isRemoved p r si = false := by revert hsi; cases isRemoved p r si <;> simp
      have hrest : rest.any (isRemoved p r) = true := by
        simp only [List.any_cons, hsi', Bool.false_or] at h
        exact h
      have hlt := ih hrest
      rw [vstart_cons_kept p r si rest hsi']
      simp only [List.length_cons]
      omega

/-- The reconciliation scan, characterized: the compacted store is the
order-preserving image of the per-entry rule, the unmodified bands are the
untouched maximal front and back segments, and the released references are
exactly the items of the dropped entries. -/
lemma removeItems_eq (p r a : Nat) (store : List SortItem) :
    removeItems p r a store =
      (store.filterMap (survivorFn p r a), vstart p r store, vend p r store,
       (store.filter (isRemoved p r)).map SortItem.item) := by
  rw [removeItems, removeItemsGo_spec p r a store store.length 0 0 store.length store.length
    (by omega)]
  by_cases hany : store.any (isRemoved p r) = true
  · have hlt := vstart_lt_length_of_any p r store hany
    have h1 : min store.length (0 + vstart p r store) = vstart p r store := by omega
    simp [hany, h1, vstart_le_length p r store]
  · have hany' : store.any (isRemoved p r) = false := by
      revert hany; cases store.any (isRemoved p r) <;> simp
    simp [hany', vstart_of_any_false p r store hany', vend_of_any_false p r store hany']

/-! Position bookkeeping of the reconciliation, as a permutation argument. -/

/-- The position-level view of the per-entry reconciliation rule. -/
def posF (p r a : Nat) (x : Nat) : Option Nat :=
  if p + r ≤ x then some (x - r + a)
  else if p ≤ x then none
  else some x

lemma positions_filterMap (p r a : Nat) (store : List SortItem) :
    (store.filterMap (survivorFn p r a)).map SortItem.position =
      (store.map SortItem.position).filterMap (posF p r a) := by
  rw [List.map_filterMap, List.filterMap_map]
  apply List.filterMap_congr
  intro si _
  simp only [survivorFn, posF, Function.comp]
  by_cases h1 : p + r ≤ si.position
  · simp [h1]
  · by_cases h2 : p ≤ si.position
    · simp [h1, h2]
    · simp [h1, h2]

lemma newPositions_perm (p r a L : Nat) (pos : List Nat)
    (hperm : pos.Perm (List.range L)) (hpr : p + r ≤ L) :
    (pos.filterMap (posF p r a) ++ (List.range a).map (fun k => p + k)).Perm
      (List.range (L - r + a)) := by
  have hposnd : pos.Nodup := (hperm.symm).nodup (List.nodup_range L)
  have hmemL : ∀ x ∈ pos, x < L := by
    intro x hx
    have := (hperm.mem_iff).mp hx
    simpa [List.mem_range] using this
  have hmemL' : ∀ x, x < L → x ∈ pos := by
    intro x hx
    exact (hperm.mem_iff).mpr (by simpa [List.mem_range] using hx)
  have hnd1 : (pos.filterMap (posF p r a)).Nodup := by
    refine List.Nodup.filterMap ?_ hposnd
    intro x y v hvx hvy
    rw [Option.mem_def] at hvx hvy
    simp only [posF] at hvx hvy
    by_cases hx1 : p + r ≤ x <;> by_cases hy1 : p + r ≤ y <;>
      by_cases hx2 : p ≤ x <;> by_cases hy2 : p ≤ y <;>
      simp [hx1, hy1, hx2, hy2] at hvx hvy <;> omega
  have hnd2 : ((List.range a).map (fun k => p + k)).Nodup := by
    refine List.Nodup.map ?_ (List.nodup_range a)
    intro u v huv
    have huv' : p + u = p + v := huv
    omega
  have hdisj : (pos.filterMap (posF p r a)).Disjoint ((List.range a).map (fun k => p + k)) := by
    rw [List.disjoint_left]
    intro v hv1 hv2
    rw [List.mem_filterMap] at hv1
    obtain ⟨x, hx, hfx⟩ := hv1
    rw [List.mem_map] at hv2
    obtain ⟨k, hk, hkv⟩ := hv2
    rw [List.mem_range] at hk
    simp only [posF] at hfx
    by_cases hx1 : p + r ≤ x <;> by_cases hx2 : p ≤ x <;>
      simp [hx1, hx2] at hfx <;> omega
  have hndL : (pos.filterMap (posF p r a) ++ (List.range a).map (fun k => p + k)).Nodup :=
    List.Nodup.append hnd1 hnd2 hdisj
  have hsub1 : (pos.filterMap (posF p r a) ++ (List.range a).map (fun k => p + k)) ⊆
      List.range (L - r + a) := by
    intro v hv
    rw [List.mem_append] at hv
    rw [List.mem_range]
    rcases hv with hv | hv
    · rw [List.mem_filterMap] at hv
      obtain ⟨x, hx, hfx⟩ := hv
      have hxL := hmemL x hx
      simp only [posF] at hfx
      by_cases hx1 : p + r ≤ x <;> by_cases hx2 : p ≤ x <;>
        simp [hx1, hx2] at hfx <;> omega
    · rw [List.mem_map] at hv
      obtain ⟨k, hk, hkv⟩ := hv
      rw [List.mem_range] at hk
      omega
  have hsub2 : List.range (L - r + a) ⊆
      (pos.filterMap (posF p r a) ++ (List.range a).map (fun k => p + k)) := by
    intro v hv
    rw [List.mem_range] at hv
    rw [List.mem_append]
    by_cases hv1 : v < p
    · left
      rw [List.mem_filterMap]
      refine ⟨v, hmemL' v (by omega), ?_⟩
      simp only [posF]
      rw [if_neg (by omega), if_neg (by omega)]
    · by_cases hv2 : v < p + a
      · right
        rw [List.mem_map]
        exact ⟨v - p, by rw [List.mem_range]; omega, by omega⟩
      · left
        rw [List.mem_filterMap]
        refine ⟨v + r - a, hmemL' (v + r - a) (by omega), ?_⟩
        simp only [posF]
        rw [if_pos (by omega)]
        congr 1
        omega
  exact List.Subperm.antisymm
    (List.subperm_of_subset hndL hsub1)
    (List.subperm_of_subset (List.nodup_range (L - r + a)) hsub2)

/-! State-effect characterizations of the helper routines. -/

lemma stop_sorting_fst (s : ModelState) : (stop_sorting s).1 = { s with sorting := false } := by
  unfold stop_sorting
  by_cases h : s.sorting = true
  · simp [h]
  · have h' : s.sorting = false := by revert h; cases s.sorting <;> simp
    simp only [h', Bool.false_eq_true, if_false]
    cases s
    simp_all

lemma start_sorting_fst (s : ModelState) : (start_sorting s).1 = { s with sorting := true } := by
  unfold start_sorting
  by_cases h : s.sorting = true
  · simp only [h, if_true]
    cases s
    simp_all
  · have h' : s.sorting = false := by revert h; cases s.sorting <;> simp
    simp [h']

lemma clear_items_fst (s : ModelState) :
    (clear_items s).1 = { s with sorting := false, items := [] } := by
  simp [clear_items, stop_sorting_fst]

lemma resort_fst (s : ModelState) (h : Nat) :
    (resort s h).1 =
      { s with sorting := true, alreadySorted := if s.sorting then 0 else h } := by
  simp [resort, stop_sorting_fst, start_sorting_fst]

/-- The sorter side of should_sort: whether a sorter is present and orders. -/
def sorterOrders (s : ModelState) : Bool :=
  match s.sorter with
  | some so => so.hasOrder
  | none => false

lemma should_sort_of_model_some (s : ModelState) (m : BackingModel) (h : s.model = some m) :
    should_sort s = sorterOrders s := by
  cases hso : s.sorter <;> simp [should_sort, sorterOrders, h, hso]

lemma should_sort_of_model_none (s : ModelState) (h : s.model = none) :
    should_sort s = false := by
  cases hso : s.sorter <;> simp [should_sort, h, hso]

lemma should_sort_of_sorter_none (s : ModelState) (h : s.sorter = none) :
    should_sort s = false := by
  cases hm : s.model <;> simp [should_sort, h, hm]

lemma create_items_fst_of_should (s : ModelState) (m : BackingModel)
    (hm : s.model = some m) (hss : should_sort s = true) :
    (create_items s).1 =
      { s with items := s.items ++
          m.items.enum.map (fun q => ({ item := q.2, position := q.1 } : SortItem)) } := by
  simp [create_items, hss, hm]

lemma create_items_fst_of_not (s : ModelState) (hss : should_sort s = false) :
    (create_items s).1 = s := by
  simp [create_items, hss]

lemma clear_model_fst_none (s : ModelState) (h : s.model = none) : (clear_model s).1 = s := by
  simp [clear_model, h]

lemma clear_model_fst_some (s : ModelState) (mm : BackingModel) (h : s.model = some mm) :
    (clear_model s).1 = { s with model := none, sorting := false, items := [] } := by
  simp [clear_model, h, clear_items_fst]

lemma clear_sorter_fst_none (s : ModelState) (h : s.sorter = none) : (clear_sorter s).1 = s := by
  simp [clear_sorter, h]

lemma clear_sorter_fst_some (s : ModelState) (so : Sorter) (h : s.sorter = some so) :
    (clear_sorter s).1 = { s with sorter := none, sorting := false, items := [] } := by
  simp [clear_sorter, h, clear_items_fst]

lemma enum_entries_positions (l : List Nat) :
    ((l.enum.map (fun q => ({ item := q.2, position := q.1 } : SortItem))).map
      SortItem.position) = List.range l.length := by
  rw [List.map_map]
  have hc : (SortItem.position ∘ fun q => ({ item := q.2, position := q.1 } : SortItem)) =
      Prod.fst := by
    funext q
    rfl
  rw [hc, List.enum_map_fst]

lemma applyBackingEdit_length (m : BackingModel) (p r : Nat) (new : List Nat)
    (h : p + r ≤ m.items.length) :
    (applyBackingEdit m p r new).items.length = m.items.length - r + new.length := by
  simp [applyBackingEdit]
  omega

/-! Preservation of the store invariant by every event. -/

lemma storeInv_sortTick (s : ModelState) (ns : List SortItem) (more : Bool)
    (h : StoreInv s) (hperm : ns.Perm s.items) :
    StoreInv (step s (Event.sortTick ns more)).1 := by
  simp only [step]
  by_cases hs : s.sorting = true
  · rw [if_pos hs]
    unfold sort_cb
    by_cases hm : more = true
    · rw [if_pos hm]
      constructor
      · intro hss
        have h1 := h.1 hss
        exact ((hperm.map SortItem.position).trans h1 :)
      · intro hss
        have h2 := h.2 hss
        rw [h2] at hperm
        exact (hperm.eq_nil :)
    · have hm' : more = false := by revert hm; cases more <;> simp
      rw [hm', if_neg (by simp)]
      rw [stop_sorting_fst]
      exact ⟨h.1, h.2⟩
  · rw [if_neg hs]
    exact h

lemma storeInv_sorter_changed (q : ModelState)
    (hpre : q.items = [] ∨ (q.items.map SortItem.position).Perm (List.range (get_n_items q))) :
    StoreInv (sorter_changed_cb q).1 := by
  cases hso : q.sorter with
  | none =>
    simp only [sorter_changed_cb, hso]
    rw [if_pos trivial, clear_items_fst, resort_fst]
    constructor
    · intro hss
      rw [should_sort_of_sorter_none _ (by simp [hso])] at hss
      exact absurd hss (by simp)
    · intro _
      rfl
  | some so =>
    by_cases hord : so.hasOrder = true
    · by_cases hempty : q.items.isEmpty = true
      · simp only [sorter_changed_cb, hso, hord, Bool.not_true, Bool.false_eq_true, if_false,
          hempty, if_true]
        cases hm : q.model with
        | some m =>
          have hss : should_sort q = true := by
            rw [should_sort_of_model_some q m hm]
            simp [sorterOrders, hso, hord]
          rw [create_items_fst_of_should q m hm hss, resort_fst]
          have hqnil : q.items = [] := List.isEmpty_iff.mp hempty
          constructor
          · intro _
            show ((q.items ++ m.items.enum.map
                (fun p => ({ item := p.2, position := p.1 } : SortItem))).map
                SortItem.position).Perm (List.range (get_n_items q))
            rw [hqnil, List.nil_append, enum_entries_positions]
            have hn : get_n_items q = m.items.length := by
              simp [get_n_items, hm]
            rw [hn]
          · intro hss2
            have : should_sort q = false := hss2
            rw [hss] at this
            exact absurd this (by simp)
        | none =>
          have hss : should_sort q = false := should_sort_of_model_none q hm
          rw [create_items_fst_of_not q hss, resort_fst]
          constructor
          · intro hss2
            have hss2' : should_sort q = true := hss2
            rw [hss] at hss2'
            exact absurd hss2' (by simp)
          · intro _
            exact List.isEmpty_iff.mp hempty
      · have hempty' : q.items.isEmpty = false := by
          revert hempty; cases q.items.isEmpty <;> simp
        simp only [sorter_changed_cb, hso, hord, Bool.not_true, Bool.false_eq_true, if_false,
          hempty', if_neg]
        rw [resort_fst]
        have hne : q.items ≠ [] := List.isEmpty_eq_false.mp hempty'
        have hperm : (q.items.map SortItem.position).Perm (List.range (get_n_items q)) := by
          rcases hpre with hnil | hperm
          · exact absurd hnil hne
          · exact hperm
        constructor
        · intro _
          exact hperm
        · intro hss
          have hss' : should_sort q = false := hss
          show q.items = []
          cases hm : q.model with
          | some m =>
            rw [should_sort_of_model_some q m hm] at hss'
            simp [sorterOrders, hso, hord] at hss'
          | none =>
            have hn : get_n_items q = 0 := by simp [get_n_items, hm]
            rw [hn, List.range_zero] at hperm
            exact List.map_eq_nil_iff.mp hperm.eq_nil
    · have hord' : so.hasOrder = false := by revert hord; cases so.hasOrder <;> simp
      simp only [sorter_changed_cb, hso, hord', Bool.not_false, if_true]
      rw [clear_items_fst, resort_fst]
      constructor
      · intro hss
        have hss' : should_sort q = true := hss
        cases hm : q.model with
        | some m =>
          rw [should_sort_of_model_some q m hm] at hss'
          simp [sorterOrders, hso, hord'] at hss'
        | none =>
          rw [should_sort_of_model_none q hm] at hss'
          exact absurd hss' (by simp)
      · intro _
        rfl

lemma storeInv_rebuild (q : ModelState) (mm : BackingModel) (hitems : q.items = []) :
    StoreInv (resort (create_items { q with model := some mm }).1 0).1 := by
  by_cases hss : should_sort { q with model := some mm } = true
  · rw [create_items_fst_of_should { q with model := some mm } mm rfl hss, resort_fst]
    constructor
    · intro _
      show ((({ q with model := some mm } : ModelState).items ++ mm.items.enum.map
          (fun p => ({ item := p.2, position := p.1 } : SortItem))).map SortItem.position).Perm
        (List.range mm.items.length)
      have hit : ({ q with model := some mm } : ModelState).items = [] := hitems
      rw [hit, List.nil_append, enum_entries_positions]
    · intro hss2
      have hss2' : should_sort { q with model := some mm } = false := hss2
      rw [hss] at hss2'
      exact absurd hss2' (by simp)
  · have hss' : should_sort { q with model := some mm } = false := by
      revert hss; cases should_sort { q with model := some mm } <;> simp
    rw [create_items_fst_of_not _ hss', resort_fst]
    constructor
    · intro hss2
      have hss2' : should_sort { q with model := some mm } = true := hss2
      rw [hss'] at hss2'
      exact absurd hss2' (by simp)
    · intro _
      exact hitems

lemma storeInv_set_sorter (s : ModelState) (so : Option Sorter) (h : StoreInv s) :
    StoreInv (set_sorter s so).1 := by
  cases so with
  | none =>
    simp only [set_sorter]
    cases hso : s.sorter with
    | none =>
      rw [clear_sorter_fst_none s hso]
      exact h
    | some so0 =>
      rw [clear_sorter_fst_some s so0 hso]
      constructor
      · intro hss
        have hss' : should_sort { s with sorter := none, sorting := false, items := [] } =
            false := should_sort_of_sorter_none _ rfl
        rw [hss'] at hss
        exact absurd hss (by simp)
      · intro _
        rfl
  | some sorter =>
    simp only [set_sorter]
    apply storeInv_sorter_changed
    left
    cases hso : s.sorter with
    | none =>
      rw [clear_sorter_fst_none s hso]
      exact h.2 (should_sort_of_sorter_none s hso)
    | some so0 =>
      rw [clear_sorter_fst_some s so0 hso]

lemma storeInv_set_model (s : ModelState) (m : Option BackingModel) (h : StoreInv s) :
    StoreInv (set_model s m).1 := by
  by_cases hsm : s.model = m
  · simp only [set_model, if_pos hsm]
    exact h
  · simp only [set_model, if_neg hsm]
    cases m with
    | none =>
      cases hm0 : s.model with
      | none => exact absurd (hm0.trans rfl) hsm
      | some mm0 =>
        rw [clear_model_fst_some s mm0 hm0]
        constructor
        · intro hss
          have hss' : should_sort { s with model := none, sorting := false, items := [] } =
              false := should_sort_of_model_none _ rfl
          rw [hss'] at hss
          exact absurd hss (by simp)
        · intro _
          rfl
    | some mm =>
      have h1 : (clear_model s).1.items = [] := by
        cases hm0 : s.model with
        | none =>
          rw [clear_model_fst_none s hm0]
          exact h.2 (should_sort_of_model_none s hm0)
        | some mm0 =>
          rw [clear_model_fst_some s mm0 hm0]
      exact storeInv_rebuild (clear_model s).1 mm h1

/-! Full characterizations of the sorting helpers and the edit handler. -/

lemma stop_sorting_eq (s : ModelState) :
    stop_sorting s = ({ s with sorting := false },
      if s.sorting = true then [Op.stopSort, Op.propNotify PropId.sorting] else []) := by
  unfold stop_sorting
  by_cases h : s.sorting = true
  · simp [h]
  · have h' : s.sorting = false := by revert h; cases s.sorting <;> simp
    simp only [h', Bool.false_eq_true, if_false]
    cases s
    simp_all

lemma start_sorting_eq (s : ModelState) :
    start_sorting s = ({ s with sorting := true },
      if s.sorting = true then [] else [Op.startSort, Op.propNotify PropId.sorting]) := by
  unfold start_sorting
  by_cases h : s.sorting = true
  · simp only [h, if_true]
    cases s
    simp_all
  · have h' : s.sorting = false := by revert h; cases s.sorting <;> simp
    simp [h']

lemma resort_eq (s : ModelState) (hint : Nat) :
    resort s hint = ({ s with
        sorting := true,
        alreadySorted := if s.sorting = true then 0 else hint },
      (if s.sorting = true then [Op.stopSort, Op.propNotify PropId.sorting] else []) ++
        [Op.startSort, Op.propNotify PropId.sorting]) := by
  unfold resort
  simp only [stop_sorting_eq, start_sorting_eq]
  by_cases h : s.sorting = true
  · simp [h]
  · have h' : s.sorting = false := by revert h; cases s.sorting <;> simp
    simp [h']

/-- The view-space length of the notified range the handler computes
(guint arithmetic on the post-edit store length and the untouched bands). -/
def notifN (p rr added : Nat) (store : List SortItem) : Nat :=
  sub32 (sub32 ((store.filterMap (survivorFn p rr added)).length + added) (vstart p rr store))
    (vend p rr store)

/-- The removed-count field of the notification the handler emits. -/
def notifRemoved (p rr added : Nat) (store : List SortItem) : Nat :=
  add32 (sub32 (notifN p rr added store) added) rr

/-- The reconciled store after the handler runs: the compacted survivors
followed by one new entry per added backing item. -/
def reconStore (s' : ModelState) (p rr added : Nat) : List SortItem :=
  s'.items.filterMap (survivorFn p rr added) ++
    (List.range added).map
      (fun k => ({ item := backing_get s' (p + k), position := p + k } : SortItem))

lemma items_changed_cb_pos (s' : ModelState) (p rr added : Nat)
    (hss : should_sort s' = true) (hpos : 0 < added) :
    items_changed_cb s' p rr added =
      ({ s' with
          items := reconStore s' p rr added,
          sorting := true,
          alreadySorted := if s'.sorting = true then 0 else
            (s'.items.filterMap (survivorFn p rr added)).length },
       (if s'.sorting = true then [Op.stopSort, Op.propNotify PropId.sorting] else []) ++
         [Op.storeMutate, Op.storeMutate, Op.startSort, Op.propNotify PropId.sorting,
           Op.itemsChanged (vstart p rr s'.items) (notifRemoved p rr added s'.items)
             (notifN p rr added s'.items)]) := by
  have hnz : ¬(rr = 0 ∧ added = 0) := by omega
  have hns : ¬(should_sort s' = false) := by simp [hss]
  unfold items_changed_cb
  rw [if_neg hnz, if_neg hns, stop_sorting_eq]
  simp only [removeItems_eq, if_pos hpos, resort_eq, reconStore, notifN, notifRemoved]
  by_cases hw : s'.sorting = true
  · simp [hw, List.length_append, Nat.add_sub_cancel, List.length_map, List.length_range]
    intro a _
    rfl
  · have hw' : s'.sorting = false := by revert hw; cases s'.sorting <;> simp
    simp [hw', List.length_append, Nat.add_sub_cancel, List.length_map, List.length_range]
    intro a _
    rfl

lemma items_changed_cb_zero (s' : ModelState) (p rr : Nat)
    (hss : should_sort s' = true) (hrr : 0 < rr) :
    items_changed_cb s' p rr 0 =
      ({ s' with
          items := s'.items.filterMap (survivorFn p rr 0),
          sorting := s'.sorting,
          alreadySorted := if s'.sorting = true then 0 else s'.alreadySorted },
       (if s'.sorting = true then [Op.stopSort, Op.propNotify PropId.sorting] else []) ++
         [Op.storeMutate] ++
         (if s'.sorting = true then [Op.startSort, Op.propNotify PropId.sorting] else []) ++
         [Op.itemsChanged (vstart p rr s'.items) (notifRemoved p rr 0 s'.items)
           (notifN p rr 0 s'.items)]) := by
  have hnz : ¬(rr = 0 ∧ (0 : Nat) = 0) := by omega
  have hns : ¬(should_sort s' = false) := by simp [hss]
  unfold items_changed_cb
  rw [if_neg hnz, if_neg hns, stop_sorting_eq]
  simp only [removeItems_eq, resort_eq, notifN, notifRemoved]
  by_cases hw : s'.sorting = true
  · simp [hw]
  · have hw' : s'.sorting = false := by revert hw; cases s'.sorting <;> simp
    simp only [hw', Bool.false_eq_true, if_false, Nat.lt_irrefl]
    simp

lemma items_changed_cb_nop (s' : ModelState) (p rr added : Nat) (h : rr = 0 ∧ added = 0) :
    items_changed_cb s' p rr added = (s', []) := by
  unfold items_changed_cb
  rw [if_pos h]

lemma items_changed_cb_degraded (s' : ModelState) (p rr added : Nat)
    (hnz : ¬(rr = 0 ∧ added = 0)) (hd : should_sort s' = false) :
    items_changed_cb s' p rr added = (s', [Op.itemsChanged p rr added]) := by
  unfold items_changed_cb
  rw [if_neg hnz, if_pos hd]

lemma storeInv_items_changed_cb (s' : ModelState) (p rr added L : Nat)
    (hval : p + rr ≤ L)
    (hn : get_n_items s' = L - rr + added)
    (h1 : should_sort s' = true → (s'.items.map SortItem.position).Perm (List.range L))
    (h2 : should_sort s' = false → s'.items = []) :
    StoreInv (items_changed_cb s' p rr added).1 := by
  by_cases hz : rr = 0 ∧ added = 0
  · rw [items_changed_cb_nop s' p rr added hz]
    constructor
    · intro hss
      have hL : get_n_items s' = L := by omega
      rw [hL]
      exact h1 hss
    · exact h2
  · by_cases hd : should_sort s' = false
    · rw [items_changed_cb_degraded s' p rr added hz hd]
      constructor
      · intro hss
        rw [hd] at hss
        exact absurd hss (by simp)
      · intro _
        exact h2 hd
    · have hss : should_sort s' = true := by
        revert hd; cases should_sort s' <;> simp
      have hperm0 := h1 hss
      by_cases hpos : 0 < added
      · rw [items_changed_cb_pos s' p rr added hss hpos]
        constructor
        · intro _
          show ((reconStore s' p rr added).map SortItem.position).Perm
            (List.range (get_n_items s'))
          rw [hn]
          unfold reconStore
          rw [List.map_append, positions_filterMap, List.map_map]
          have hcomp : (SortItem.position ∘ fun k =>
              ({ item := backing_get s' (p + k), position := p + k } : SortItem)) =
              (fun k => p + k) := by
            funext k
            rfl
          rw [hcomp]
          exact newPositions_perm p rr added L (s'.items.map SortItem.position) hperm0 hval
        · intro hss2
          have hss2' : should_sort s' = false := hss2
          rw [hss] at hss2'
          exact absurd hss2' (by simp)
      · have hzero : added = 0 := by omega
        subst hzero
        rw [items_changed_cb_zero s' p rr hss (by omega)]
        constructor
        · intro _
          show ((s'.items.filterMap (survivorFn p rr 0)).map SortItem.position).Perm
            (List.range (get_n_items s'))
          rw [hn, positions_filterMap]
          have := newPositions_perm p rr 0 L (s'.items.map SortItem.position) hperm0 hval
          simpa using this
        · intro hss2
          have hss2' : should_sort s' = false := hss2
          rw [hss] at hss2'
          exact absurd hss2' (by simp)

lemma storeInv_itemsChanged (s : ModelState) (p rr : Nat) (new : List Nat) (m : BackingModel)
    (h : StoreInv s) (hm : s.model = some m) (hval : p + rr ≤ m.items.length) :
    StoreInv (step s (Event.itemsChanged p rr new)).1 := by
  simp only [step, hm]
  apply storeInv_items_changed_cb _ p rr new.length m.items.length hval
  · show get_n_items { s with model := some (applyBackingEdit m p rr new) } =
      m.items.length - rr + new.length
    simp [get_n_items, applyBackingEdit_length m p rr new hval]
  · intro hss
    have hq := should_sort_of_model_some
      { s with model := some (applyBackingEdit m p rr new) } (applyBackingEdit m p rr new) rfl
    rw [hq] at hss
    have hss0 : should_sort s = true := by
      rw [should_sort_of_model_some s m hm]
      exact hss
    have hp := h.1 hss0
    have hL : get_n_items s = m.items.length := by simp [get_n_items, hm]
    rw [hL] at hp
    exact hp
  · intro hss
    have hq := should_sort_of_model_some
      { s with model := some (applyBackingEdit m p rr new) } (applyBackingEdit m p rr new) rfl
    rw [hq] at hss
    have hss0 : should_sort s = false := by
      rw [should_sort_of_model_some s m hm]
      exact hss
    exact h.2 hss0

/-- Every reachable state satisfies the store invariant. -/
lemma reachable_storeInv (s : ModelState) (h : Reachable s) : StoreInv s := by
  induction h with
  | init =>
    exact ⟨fun hss => absurd hss (by decide), fun _ => rfl⟩
  | next s e hr hv ih =>
    cases e with
    | setModel m => exact storeInv_set_model s m ih
    | setSorter so => exact storeInv_set_sorter s so ih
    | sorterChanged b =>
      cases hso : s.sorter with
      | none =>
        simp only [step, hso]
        exact ih
      | some so =>
        simp only [step, hso]
        apply storeInv_sorter_changed
        by_cases hi : s.items = []
        · left
          exact hi
        · right
          have hss : should_sort s = true := by
            by_contra hc
            have hc' : should_sort s = false := by revert hc; cases should_sort s <;> simp
            exact hi (ih.2 hc')
          exact ih.1 hss
    | itemsChanged p rr new =>
      simp only [validEvent] at hv
      cases hm : s.model with
      | none =>
        rw [hm] at hv
        exact absurd hv (by simp)
      | some m =>
        rw [hm] at hv
        exact storeInv_itemsChanged s p rr new m ih hm (of_decide_eq_true hv)
    | sortTick ns more =>
      simp only [validEvent] at hv
      have hperm : ns.Perm s.items := by
        rcases Bool.and_eq_true_iff.mp hv with ⟨h1, _⟩
        rcases Bool.and_eq_true_iff.mp h1 with ⟨_, h3⟩
        exact of_decide_eq_true h3
      exact storeInv_sortTick s ns more ih hperm

/-! Arithmetic and band lemmas supporting the notification analysis. -/

lemma sub32_of_le (a b : Nat) (hb : b ≤ a) (ha : a < U32) : sub32 a b = a - b := by
  unfold sub32
  have h1 : b % U32 = b := Nat.mod_eq_of_lt (by omega)
  rw [h1]
  have h2 : a + U32 - b = U32 + (a - b) := by omega
  rw [h2, Nat.add_mod_left, Nat.mod_eq_of_lt (by omega)]

lemma add32_of_lt (a b : Nat) (h : a + b < U32) : add32 a b = a + b :=
  Nat.mod_eq_of_lt h

/-- The shift applied to a surviving entry by the reconciliation scan. -/
def gshift (p r a : Nat) (si : SortItem) : SortItem :=
  if p + r ≤ si.position then { item := si.item, position := si.position - r + a } else si

lemma gshift_item (p r a : Nat) (si : SortItem) : (gshift p r a si).item = si.item := by
  unfold gshift
  split <;> rfl

lemma survivorFn_of_kept (p r a : Nat) (si : SortItem) (h : isRemoved p r si = false) :
    survivorFn p r a si = some (gshift p r a si) := by
  simp only [isRemoved, Bool.and_eq_false_iff] at h
  unfold survivorFn gshift
  by_cases h1 : p + r ≤ si.position
  · simp [h1]
  · have h2 : ¬ p ≤ si.position := by
      rcases h with h | h
      · simp at h
        omega
      · simp at h
        omega
    simp [h1, h2]

lemma filterMap_all_kept (p r a : Nat) (l : List SortItem)
    (h : ∀ si ∈ l, isRemoved p r si = false) :
    l.filterMap (survivorFn p r a) = l.map (gshift p r a) := by
  induction l with
  | nil => simp
  | cons si rest ih =>
    rw [List.filterMap_cons, survivorFn_of_kept p r a si (h si (by simp)), List.map_cons]
    rw [ih (fun x hx => h x (by simp [hx]))]

lemma filterMap_length_of_none_removed (p r a : Nat) (l : List SortItem)
    (h : l.any (isRemoved p r) = false) :
    (l.filterMap (survivorFn p r a)).length = l.length := by
  have hall : ∀ si ∈ l, isRemoved p r si = false := by
    intro si hsi
    by_contra hc
    have hc' : isRemoved p r si = true := by revert hc; cases isRemoved p r si <;> simp
    have := List.any_eq_true.mpr ⟨si, hsi, hc'⟩
    rw [h] at this
    exact absurd this (by simp)
  rw [filterMap_all_kept p r a l hall, List.length_map]

lemma surv_length_eq (p r a : Nat) (store : List SortItem) :
    (store.filterMap (survivorFn p r a)).length =
      store.length - store.countP (isRemoved p r) := by
  induction store with
  | nil => simp
  | cons si rest ih =>
    have hcnt := List.countP_le_length (isRemoved p r) (l := rest)
    by_cases h : isRemoved p r si = true
    · have hsv : survivorFn p r a si = none := by
        simp only [isRemoved, Bool.and_eq_true, decide_eq_true_eq] at h
        unfold survivorFn
        rw [if_neg (by omega), if_pos (by omega)]
      rw [List.filterMap_cons, hsv, List.countP_cons]
      simp only [h, if_true, List.length_cons]
      omega
    · have h' : isRemoved p r si = false := by revert h; cases isRemoved p r si <;> simp
      rw [List.filterMap_cons, survivorFn_of_kept p r a si h', List.countP_cons]
      simp only [h', List.length_cons, List.length_cons]
      simp only [Bool.false_eq_true, if_false]
      omega

lemma bands_le_surv (p r a : Nat) (store : List SortItem)
    (hany : store.any (isRemoved p r) = true) :
    vstart p r store + vend p r store ≤ (store.filterMap (survivorFn p r a)).length := by
  induction store with
  | nil => simp at hany
  | cons si rest ih =>
    by_cases hsi : isRemoved p r si = true
    · rw [vstart_cons_rem p r si rest hsi]
      have hsv : survivorFn p r a si = none := by
        simp only [isRemoved, Bool.and_eq_true, decide_eq_true_eq] at hsi
        unfold survivorFn
        rw [if_neg (by omega), if_pos (by omega)]
      simp only [List.filterMap_cons, hsv]
      by_cases hany2 : rest.any (isRemoved p r) = true
      · rw [vend_cons_of_any p r si rest hany2]
        have := ih hany2
        omega
      · have hany2' : rest.any (isRemoved p r) = false := by
          revert hany2; cases rest.any (isRemoved p r) <;> simp
        rw [vend_cons_rem_of_none p r si rest hsi hany2',
          filterMap_length_of_none_removed p r a rest hany2']
        omega
    · have hsi' : isRemoved p r si = false := by revert hsi; cases isRemoved p r si <;> simp
      have hany2 : rest.any (isRemoved p r) = true := by
        simp only [List.any_cons, hsi', Bool.false_or] at hany
        exact hany
      rw [vstart_cons_kept p r si rest hsi', vend_cons_of_any p r si rest hany2,
        List.filterMap_cons, survivorFn_of_kept p r a si hsi']
      have := ih hany2
      simp only [List.length_cons]
      omega

lemma countP_range_band (p rr L : Nat) :
    (List.range L).countP (fun x => decide (p ≤ x) && decide (x < p + rr)) =
      min L (p + rr) - min L p := by
  induction L with
  | zero => simp
  | succ n ih =>
    rw [List.range_succ, List.countP_append, ih]
    by_cases h1 : p ≤ n <;> by_cases h2 : n < p + rr <;>
      simp [List.countP_cons, h1, h2] <;> omega

lemma store_countP_removed (p rr L : Nat) (store : List SortItem)
    (hperm : (store.map SortItem.position).Perm (List.range L)) (hval : p + rr ≤ L) :
    store.countP (isRemoved p rr) = rr := by
  have h1 : store.countP (isRemoved p rr) =
      (store.map SortItem.position).countP (fun x => decide (p ≤ x) && decide (x < p + rr)) := by
    rw [List.countP_map]
    rfl
  rw [h1, hperm.countP_eq, countP_range_band]
  omega

lemma take_map_item_of_decomp (p r a : Nat) (A D : List SortItem)
    (hAkept : ∀ si ∈ A, isRemoved p r si = false) :
    (((A ++ D).filterMap (survivorFn p r a)).take A.length).map SortItem.item =
      ((A ++ D).take A.length).map SortItem.item := by
  rw [List.filterMap_append, filterMap_all_kept p r a A hAkept]
  conv_lhs => rw [show A.length = (A.map (gshift p r a)).length by simp, List.take_left]
  rw [List.take_left, List.map_map]
  have hitem : SortItem.item ∘ gshift p r a = SortItem.item := by
    funext si
    exact gshift_item p r a si
  rw [hitem]

lemma drop_map_item_of_decomp (p r a : Nat) (C E : List SortItem)
    (hEkept : ∀ si ∈ E, isRemoved p r si = false) :
    (((C ++ E).filterMap (survivorFn p r a)).drop
        (((C ++ E).filterMap (survivorFn p r a)).length - E.length)).map SortItem.item =
      ((C ++ E).drop ((C ++ E).length - E.length)).map SortItem.item := by
  rw [List.filterMap_append, filterMap_all_kept p r a E hEkept]
  have h1 : (C.filterMap (survivorFn p r a) ++ E.map (gshift p r a)).length - E.length =
      (C.filterMap (survivorFn p r a)).length := by
    rw [List.length_append, List.length_map]
    omega
  have h2 : (C ++ E).length - E.length = C.length := by
    rw [List.length_append]
    omega
  rw [h1, h2, List.drop_left, List.drop_left, List.map_map]
  have hitem : SortItem.item ∘ gshift p r a = SortItem.item := by
    funext si
    exact gshift_item p r a si
  rw [hitem]

lemma surv_take_vstart (p r a : Nat) (store : List SortItem) :
    ((store.filterMap (survivorFn p r a)).take (vstart p r store)).map SortItem.item =
      (store.take (vstart p r store)).map SortItem.item := by
  have hAkept : ∀ si ∈ store.takeWhile (fun si => !isRemoved p r si),
      isRemoved p r si = false := by
    intro si hsi
    have h := List.mem_takeWhile_imp hsi
    revert h
    cases isRemoved p r si <;> simp
  have key := take_map_item_of_decomp p r a
    (store.takeWhile (fun si => !isRemoved p r si))
    (store.dropWhile (fun si => !isRemoved p r si)) hAkept
  rw [List.takeWhile_append_dropWhile] at key
  exact key

lemma surv_drop_vend (p r a : Nat) (store : List SortItem) :
    ((store.filterMap (survivorFn p r a)).drop
        ((store.filterMap (survivorFn p r a)).length - vend p r store)).map SortItem.item =
      (store.drop (store.length - vend p r store)).map SortItem.item := by
  have hdec : store.reverse.takeWhile (fun si => !isRemoved p r si) ++
      store.reverse.dropWhile (fun si => !isRemoved p r si) = store.reverse :=
    List.takeWhile_append_dropWhile _ store.reverse
  have hstore : (store.reverse.dropWhile (fun si => !isRemoved p r si)).reverse ++
      (store.reverse.takeWhile (fun si => !isRemoved p r si)).reverse = store := by
    rw [← List.reverse_append, hdec, List.reverse_reverse]
  have hEkept : ∀ si ∈ (store.reverse.takeWhile (fun si => !isRemoved p r si)).reverse,
      isRemoved p r si = false := by
    intro si hsi
    rw [List.mem_reverse] at hsi
    have h := List.mem_takeWhile_imp hsi
    revert h
    cases isRemoved p r si <;> simp
  have key := drop_map_item_of_decomp p r a
    (store.reverse.dropWhile (fun si => !isRemoved p r si)).reverse
    (store.reverse.takeWhile (fun si => !isRemoved p r si)).reverse hEkept
  rw [hstore, List.length_reverse] at key
  exact key

/-! Claim theorems. -/

/-- C2: a backing edit (p, removed, added) applied to a populated store with
unique original positions inside the backing range is reconciled by one scan:
every entry whose position lies in the removed window is dropped with its item
released (in store order), every entry at or above the window is shifted by
added - removed, entries below the window are unchanged, survivors are
compacted at the front preserving relative order (the filterMap equation
states all of this), and exactly removed entries are dropped. -/
theorem c2_remove_items_scan (p rr a L : Nat) (store : List SortItem)
    (hnd : (store.map SortItem.position).Nodup)
    (hbound : ∀ si ∈ store, si.position < L)
    (hlen : store.length = L)
    (hval : p + rr ≤ L) :
    (removeItems p rr a store).1 = store.filterMap (survivorFn p rr a) ∧
    (removeItems p rr a store).2.2.2 = (store.filter (isRemoved p rr)).map SortItem.item ∧
    store.countP (isRemoved p rr) = rr := by
  refine ⟨by rw [removeItems_eq], by rw [removeItems_eq], ?_⟩
  have hsub : (store.map SortItem.position) ⊆ List.range L := by
    intro x hx
    rw [List.mem_map] at hx
    obtain ⟨si, hsi, hx⟩ := hx
    rw [List.mem_range, ← hx]
    exact hbound si hsi
  have hsp := List.subperm_of_subset hnd hsub
  have hlle : (List.range L).length ≤ (store.map SortItem.position).length := by
    simp [hlen]
  exact store_countP_removed p rr L store (hsp.perm_of_length_le hlle) hval

/-- Witness for C2 at a concrete store and edit. -/
theorem c2_remove_items_scan_witness :
    (removeItems 1 1 2
        [{ item := 10, position := 0 }, { item := 11, position := 1 },
          { item := 12, position := 2 }]).1 =
      ([{ item := 10, position := 0 }, { item := 11, position := 1 },
          { item := 12, position := 2 }] : List SortItem).filterMap (survivorFn 1 1 2) ∧
    (removeItems 1 1 2
        [{ item := 10, position := 0 }, { item := 11, position := 1 },
          { item := 12, position := 2 }]).2.2.2 =
      (([{ item := 10, position := 0 }, { item := 11, position := 1 },
          { item := 12, position := 2 }] : List SortItem).filter (isRemoved 1 1)).map
        SortItem.item ∧
    ([{ item := 10, position := 0 }, { item := 11, position := 1 },
        { item := 12, position := 2 }] : List SortItem).countP (isRemoved 1 1) = 1 :=
  c2_remove_items_scan 1 1 2 3
    [{ item := 10, position := 0 }, { item := 11, position := 1 },
      { item := 12, position := 2 }]
    (by decide) (by decide) (by decide) (by decide)

/-- C6: an actual backing edit received while sorting is degraded (the model
is connected but no usable sorter orders the items) is forwarded verbatim and
leaves the store and the session state untouched. -/
theorem c6_degraded_pass_through (s : ModelState) (m : BackingModel) (p rr : Nat)
    (new : List Nat) (hm : s.model = some m) (hdeg : should_sort s = false)
    (hnz : ¬(rr = 0 ∧ new = [])) :
    (step s (Event.itemsChanged p rr new)).2 = [Op.itemsChanged p rr new.length] ∧
    (step s (Event.itemsChanged p rr new)).1.items = s.items ∧
    (step s (Event.itemsChanged p rr new)).1.sorting = s.sorting := by
  simp only [step, hm]
  have hd' : should_sort { s with model := some (applyBackingEdit m p rr new) } = false := by
    rw [should_sort_of_model_some _ (applyBackingEdit m p rr new) rfl]
    rw [should_sort_of_model_some s m hm] at hdeg
    exact hdeg
  have hnz' : ¬(rr = 0 ∧ new.length = 0) := by
    intro hand
    exact hnz ⟨hand.1, List.length_eq_zero.mp hand.2⟩
  rw [items_changed_cb_degraded _ p rr new.length hnz' hd']
  exact ⟨rfl, rfl, rfl⟩

/-- A concrete degraded state: a backing model with two items and no sorter. -/
def c6state : ModelState where
  model := some { id := 0, items := [1, 2] }
  sorter := none
  items := []
  sorting := false
  alreadySorted := 0

/-- Witness for C6: a model with no sorter forwards an edit unchanged. -/
theorem c6_degraded_pass_through_witness :
    (step c6state (Event.itemsChanged 0 1 [5, 6])).2 = [Op.itemsChanged 0 1 2] ∧
    (step c6state (Event.itemsChanged 0 1 [5, 6])).1.items = c6state.items ∧
    (step c6state (Event.itemsChanged 0 1 [5, 6])).1.sorting = c6state.sorting :=
  c6_degraded_pass_through c6state { id := 0, items := [1, 2] } 0 1 [5, 6] rfl
    (by decide) (by decide)

/-- C8: while the sorter callback is scheduled and the sort step reports
remaining work, the tick emits exactly one range-changed notification covering
the whole store, of the shape (0, n, n) with n the store length. -/
theorem c8_sort_step_notification (s : ModelState) (ns : List SortItem)
    (hs : s.sorting = true) (hperm : ns.Perm s.items) :
    (step s (Event.sortTick ns true)).2 =
      [Op.itemsChanged 0 s.items.length s.items.length] := by
  simp only [step, hs, if_true, sort_cb]
  rw [hperm.length_eq]

/-- A concrete mid-sort state over a two-element store. -/
def c8state : ModelState where
  model := some { id := 0, items := [4, 3] }
  sorter := some { id := 1, hasOrder := true }
  items := [{ item := 4, position := 0 }, { item := 3, position := 1 }]
  sorting := true
  alreadySorted := 0

/-- Witness for C8 at a two-element store mid-sort. -/
theorem c8_sort_step_notification_witness :
    (step c8state
      (Event.sortTick [{ item := 3, position := 1 }, { item := 4, position := 0 }] true)).2 =
      [Op.itemsChanged 0 c8state.items.length c8state.items.length] :=
  c8_sort_step_notification c8state
    [{ item := 3, position := 1 }, { item := 4, position := 0 }] rfl (by decide)

/-- C4: after every public operation (i.e. in every reachable state), the
store is either completely empty (pass-through mode) or holds exactly as many
entries as the backing sequence, with pairwise distinct original positions
all inside the backing index range. -/
theorem c4_store_invariant (s : ModelState) (h : Reachable s) :
    s.items = [] ∨
      (s.items.length = get_n_items s ∧
       (s.items.map SortItem.position).Nodup ∧
       ∀ si ∈ s.items, si.position < get_n_items s) := by
  have hinv := reachable_storeInv s h
  by_cases hss : should_sort s = true
  · right
    have hp := hinv.1 hss
    refine ⟨?_, ?_, ?_⟩
    · have hl := hp.length_eq
      simpa using hl
    · exact (hp.symm).nodup (List.nodup_range _)
    · intro si hsi
      have hmem : si.position ∈ s.items.map SortItem.position :=
        List.mem_map.mpr ⟨si, hsi, rfl⟩
      have := hp.mem_iff.mp hmem
      rwa [List.mem_range] at this
  · left
    have hss' : should_sort s = false := by
      revert hss; cases should_sort s <;> simp
    exact hinv.2 hss'

/-- Witness for C4 at the reachable state obtained by attaching a two-item
model and then an ordering sorter. -/
theorem c4_store_invariant_witness :
    (step (step initState (Event.setModel (some { id := 0, items := [5, 3] }))).1
        (Event.setSorter (some { id := 1, hasOrder := true }))).1.items = [] ∨
      ((step (step initState (Event.setModel (some { id := 0, items := [5, 3] }))).1
          (Event.setSorter (some { id := 1, hasOrder := true }))).1.items.length =
        get_n_items (step (step initState (Event.setModel (some { id := 0, items := [5, 3] }))).1
          (Event.setSorter (some { id := 1, hasOrder := true }))).1 ∧
       ((step (step initState (Event.setModel (some { id := 0, items := [5, 3] }))).1
          (Event.setSorter (some { id := 1, hasOrder := true }))).1.items.map
            SortItem.position).Nodup ∧
       ∀ si ∈ (step (step initState (Event.setModel (some { id := 0, items := [5, 3] }))).1
          (Event.setSorter (some { id := 1, hasOrder := true }))).1.items,
         si.position < get_n_items
           (step (step initState (Event.setModel (some { id := 0, items := [5, 3] }))).1
             (Event.setSorter (some { id := 1, hasOrder := true }))).1) :=
  c4_store_invariant _
    (Reachable.next _ _ (Reachable.next _ _ Reachable.init (by decide)) (by decide))

/-- C7: item lookup is a direct backing lookup in pass-through mode (empty
store), a store lookup otherwise, and yields an absent result (never an
error) at every position at or beyond the current length. -/
theorem c7_get_item (s : ModelState) (pos : Nat) (h : Reachable s) :
    (s.items = [] → get_item s pos = (backingItems s)[pos]?) ∧
    (s.items ≠ [] → get_item s pos = (s.items[pos]?).map SortItem.item) ∧
    (get_n_items s ≤ pos → get_item s pos = none) := by
  have hinv := reachable_storeInv s h
  cases hm : s.model with
  | none =>
    have hlen : get_item s pos = none := by simp [get_item, hm]
    have hempty : s.items = [] := by
      by_cases hss : should_sort s = true
      · have hp := hinv.1 hss
        rw [should_sort_of_model_none s hm] at hss
        exact absurd hss (by simp)
      · exact hinv.2 (by revert hss; cases should_sort s <;> simp)
    refine ⟨fun _ => ?_, fun hne => absurd hempty hne, fun _ => hlen⟩
    simp [hlen, backingItems, hm]
  | some m =>
    by_cases hi : s.items = []
    · refine ⟨fun _ => ?_, fun hne => absurd hi hne, fun hge => ?_⟩
      · simp [get_item, hm, hi, backingItems]
      · have hlen : m.items.length ≤ pos := by
          rw [show get_n_items s = m.items.length by simp [get_n_items, hm]] at hge
          exact hge
        simp [get_item, hm, hi, List.getElem?_eq_none hlen]
    · have hie : s.items.isEmpty = false := by
        rw [List.isEmpty_eq_false]
        exact hi
      have hstore : get_item s pos = (s.items[pos]?).map SortItem.item := by
        by_cases hp : s.items.length ≤ pos
        · simp [get_item, hm, hie, hp, List.getElem?_eq_none hp]
        · have hp' : ¬ s.items.length ≤ pos := hp
          simp [get_item, hm, hie, hp']
      refine ⟨fun he => absurd he hi, fun _ => hstore, fun hge => ?_⟩
      have hss : should_sort s = true := by
        by_contra hc
        exact hi (hinv.2 (by revert hc; cases should_sort s <;> simp))
      have hlen : s.items.length = get_n_items s := by
        have := (hinv.1 hss).length_eq
        simpa using this
      rw [hstore, List.getElem?_eq_none (by omega)]
      rfl

/-- Witness for C7 at the reachable pass-through state holding a two-item
model and position 5. -/
theorem c7_get_item_witness :
    ((step initState (Event.setModel (some { id := 0, items := [8, 9] }))).1.items = [] →
      get_item (step initState (Event.setModel (some { id := 0, items := [8, 9] }))).1 5 =
        (backingItems (step initState (Event.setModel (some { id := 0, items := [8, 9] }))).1)[5]?) ∧
    ((step initState (Event.setModel (some { id := 0, items := [8, 9] }))).1.items ≠ [] →
      get_item (step initState (Event.setModel (some { id := 0, items := [8, 9] }))).1 5 =
        ((step initState (Event.setModel (some { id := 0, items := [8, 9] }))).1.items[5]?).map
          SortItem.item) ∧
    (get_n_items (step initState (Event.setModel (some { id := 0, items := [8, 9] }))).1 ≤ 5 →
      get_item (step initState (Event.setModel (some { id := 0, items := [8, 9] }))).1 5 = none) :=
  c7_get_item _ 5 (Reachable.next _ _ Reachable.init (by decide))

lemma surv_length_rzero (p a : Nat) (l : List SortItem) :
    (l.filterMap (survivorFn p 0 a)).length = l.length := by
  rw [surv_length_eq]
  have hz : l.countP (isRemoved p 0) = 0 := by
    rw [List.countP_eq_zero]
    intro si _
    simp only [isRemoved, Bool.and_eq_true, decide_eq_true_eq]
    omega
  omega

/-- C10: a removal-only backing edit arriving while sorting is enabled but
idle neither starts a sort session nor resorts: the compacted survivors, in
their preserved relative order, are the final view order, and the session
state is untouched. -/
theorem c10_removal_only_idle (s : ModelState) (m : BackingModel) (p rr : Nat)
    (hm : s.model = some m) (hss : should_sort s = true) (hidle : s.sorting = false)
    (hrr : 0 < rr) :
    (step s (Event.itemsChanged p rr [])).1.items = s.items.filterMap (survivorFn p rr 0) ∧
    (step s (Event.itemsChanged p rr [])).1.sorting = false ∧
    (step s (Event.itemsChanged p rr [])).1.alreadySorted = s.alreadySorted ∧
    Op.startSort ∉ (step s (Event.itemsChanged p rr [])).2 := by
  simp only [step, hm]
  have hss' : should_sort { s with model := some (applyBackingEdit m p rr []) } = true := by
    rw [should_sort_of_model_some _ (applyBackingEdit m p rr []) rfl]
    rw [should_sort_of_model_some s m hm] at hss
    exact hss
  rw [show ([] : List Nat).length = 0 from rfl, items_changed_cb_zero _ p rr hss' hrr]
  refine ⟨rfl, hidle, ?_, ?_⟩
  · show (if s.sorting = true then 0 else s.alreadySorted) = s.alreadySorted
    rw [hidle]
    simp
  · show Op.startSort ∉
      (if s.sorting = true then [Op.stopSort, Op.propNotify PropId.sorting] else []) ++
        [Op.storeMutate] ++
        (if s.sorting = true then [Op.startSort, Op.propNotify PropId.sorting] else []) ++ _
    rw [hidle]
    simp

/-- Witness for C10: removing the first backing item while idle. -/
def c10state : ModelState where
  model := some { id := 0, items := [4, 7] }
  sorter := some { id := 1, hasOrder := true }
  items := [{ item := 7, position := 1 }, { item := 4, position := 0 }]
  sorting := false
  alreadySorted := 0

theorem c10_removal_only_idle_witness :
    (step c10state (Event.itemsChanged 0 1 [])).1.items =
      c10state.items.filterMap (survivorFn 0 1 0) ∧
    (step c10state (Event.itemsChanged 0 1 [])).1.sorting = false ∧
    (step c10state (Event.itemsChanged 0 1 [])).1.alreadySorted = c10state.alreadySorted ∧
    Op.startSort ∉ (step c10state (Event.itemsChanged 0 1 [])).2 :=
  c10_removal_only_idle c10state { id := 0, items := [4, 7] } 0 1 rfl (by decide) rfl
    (by decide)

/-- C1: the resort hint after a backing edit while sorting is enabled: a new
session is started with hint 0 whenever a session was in progress when the
edit arrived, and a pure append while idle starts the new session with hint
equal to the store length from before the append (the new store length minus
the added count). -/
theorem c1_resort_hint (s : ModelState) (m : BackingModel) (p rr : Nat) (new : List Nat)
    (hm : s.model = some m) (hss : should_sort s = true) (hnz : ¬(rr = 0 ∧ new = [])) :
    (s.sorting = true →
      (step s (Event.itemsChanged p rr new)).1.alreadySorted = 0 ∧
      Op.startSort ∈ (step s (Event.itemsChanged p rr new)).2) ∧
    (s.sorting = false → rr = 0 → new ≠ [] →
      (step s (Event.itemsChanged p rr new)).1.alreadySorted =
        (step s (Event.itemsChanged p rr new)).1.items.length - new.length ∧
      (step s (Event.itemsChanged p rr new)).1.items.length =
        s.items.length + new.length ∧
      Op.startSort ∈ (step s (Event.itemsChanged p rr new)).2) := by
  simp only [step, hm]
  have hss' : should_sort { s with model := some (applyBackingEdit m p rr new) } = true := by
    rw [should_sort_of_model_some _ (applyBackingEdit m p rr new) rfl]
    rw [should_sort_of_model_some s m hm] at hss
    exact hss
  constructor
  · intro hw
    by_cases hpos : 0 < new.length
    · rw [items_changed_cb_pos _ p rr new.length hss' hpos]
      constructor
      · show (if s.sorting = true then 0 else _) = 0
        rw [hw]
        simp
      · show Op.startSort ∈
          (if s.sorting = true then [Op.stopSort, Op.propNotify PropId.sorting] else []) ++ _
        rw [hw]
        simp
    · have hnew : new = [] := by
        rw [← List.length_eq_zero]
        omega
      subst hnew
      have hrr : 0 < rr := by
        by_contra hc
        exact hnz ⟨by omega, rfl⟩
      rw [show (([] : List Nat)).length = 0 from rfl,
        items_changed_cb_zero _ p rr hss' hrr]
      constructor
      · show (if s.sorting = true then 0 else _) = 0
        rw [hw]
        simp
      · show Op.startSort ∈
          (if s.sorting = true then [Op.stopSort, Op.propNotify PropId.sorting] else []) ++
            [Op.storeMutate] ++
            (if s.sorting = true then [Op.startSort, Op.propNotify PropId.sorting] else []) ++ _
        rw [hw]
        simp
  · intro hw hr0 hnew
    have hpos : 0 < new.length := by
      cases new with
      | nil => exact absurd rfl hnew
      | cons x xs => simp
    rw [items_changed_cb_pos _ p rr new.length hss' hpos]
    refine ⟨?_, ?_, ?_⟩
    · show (if s.sorting = true then 0 else
        (s.items.filterMap (survivorFn p rr new.length)).length) =
          (reconStore { s with model := some (applyBackingEdit m p rr new) } p rr
            new.length).length - new.length
      rw [hw]
      simp only [Bool.false_eq_true, if_false, reconStore, List.length_append,
        List.length_map, List.length_range]
      omega
    · show (reconStore { s with model := some (applyBackingEdit m p rr new) } p rr
          new.length).length = s.items.length + new.length
      subst hr0
      simp only [reconStore, List.length_append, List.length_map, List.length_range]
      rw [surv_length_rzero]
    · show Op.startSort ∈
        (if s.sorting = true then [Op.stopSort, Op.propNotify PropId.sorting] else []) ++ _
      rw [hw]
      simp

/-- Witness for C1: a pure append of one item to an idle sorted model. -/
def c1state : ModelState where
  model := some { id := 0, items := [3, 4, 9] }
  sorter := some { id := 1, hasOrder := true }
  items := [{ item := 3, position := 0 }, { item := 4, position := 1 }]
  sorting := false
  alreadySorted := 0

theorem c1_resort_hint_witness :
    (c1state.sorting = true →
      (step c1state (Event.itemsChanged 2 0 [9])).1.alreadySorted = 0 ∧
      Op.startSort ∈ (step c1state (Event.itemsChanged 2 0 [9])).2) ∧
    (c1state.sorting = false → (0 : Nat) = 0 → ([9] : List Nat) ≠ [] →
      (step c1state (Event.itemsChanged 2 0 [9])).1.alreadySorted =
        (step c1state (Event.itemsChanged 2 0 [9])).1.items.length - ([9] : List Nat).length ∧
      (step c1state (Event.itemsChanged 2 0 [9])).1.items.length =
        c1state.items.length + ([9] : List Nat).length ∧
      Op.startSort ∈ (step c1state (Event.itemsChanged 2 0 [9])).2) :=
  c1_resort_hint c1state { id := 0, items := [3, 4, 9] } 2 0 [9] rfl (by decide) (by decide)

/-- A populated, idle state holding the sorter with identity 1. -/
def c9state : ModelState where
  model := some { id := 0, items := [1, 2] }
  sorter := some { id := 1, hasOrder := true }
  items := [{ item := 1, position := 0 }, { item := 2, position := 1 }]
  sorting := false
  alreadySorted := 0

/-- Counterexample to C9 as stated: assigning to the sorter accessor the very
sorter reference already held is not a no-op — the state changes (a sort
session starts) and notifications are emitted. -/
theorem c9_counterexample :
    (step c9state (Event.setSorter (some { id := 1, hasOrder := true }))).1 ≠ c9state ∧
    notifOps (step c9state (Event.setSorter (some { id := 1, hasOrder := true }))).2 ≠ [] := by
  decide

/-- C9 (amended): assigning the backing model already held is a no-op with no
notification, assigning a different backing model emits a model
property-change notification, and the sorter setter notifies the sorter
property on every assignment, whether or not the reference changes. -/
theorem c9_setter_notifications (s : ModelState) (m : Option BackingModel)
    (so : Option Sorter) :
    (s.model = m → step s (Event.setModel m) = (s, [])) ∧
    (s.model ≠ m → Op.propNotify PropId.model ∈ (step s (Event.setModel m)).2) ∧
    Op.propNotify PropId.sorter ∈ (step s (Event.setSorter so)).2 := by
  refine ⟨?_, ?_, ?_⟩
  · intro heq
    simp only [step, set_model, if_pos heq]
  · intro hne
    simp only [step, set_model, if_neg hne]
    cases m with
    | none => simp
    | some mm => simp
  · simp only [step, set_sorter]
    cases so with
    | none => simp
    | some so0 => simp

/-- Witness for the amended C9 at a concrete populated state. -/
theorem c9_setter_notifications_witness :
    (c9state.model = some { id := 0, items := [1, 2] } →
      step c9state (Event.setModel (some { id := 0, items := [1, 2] })) = (c9state, [])) ∧
    (c9state.model ≠ some { id := 0, items := [1, 2] } →
      Op.propNotify PropId.model ∈
        (step c9state (Event.setModel (some { id := 0, items := [1, 2] }))).2) ∧
    Op.propNotify PropId.sorter ∈
      (step c9state (Event.setSorter (some { id := 1, hasOrder := true }))).2 :=
  c9_setter_notifications c9state (some { id := 0, items := [1, 2] })
    (some { id := 1, hasOrder := true })

lemma clear_items_eq (s : ModelState) :
    clear_items s = ({ s with sorting := false, items := [] },
      (if s.sorting = true then [Op.stopSort, Op.propNotify PropId.sorting] else []) ++
        (if s.items.isEmpty then [] else [Op.storeMutate])) := by
  unfold clear_items
  rw [stop_sorting_eq]

lemma clear_model_eq_none (s : ModelState) (h : s.model = none) :
    clear_model s = (s, []) := by
  simp [clear_model, h]

lemma clear_model_eq_some (s : ModelState) (mm : BackingModel) (h : s.model = some mm) :
    clear_model s = ({ s with model := none, sorting := false, items := [] },
      (if s.sorting = true then [Op.stopSort, Op.propNotify PropId.sorting] else []) ++
        (if s.items.isEmpty then [] else [Op.storeMutate])) := by
  simp [clear_model, h, clear_items_eq]

lemma clear_sorter_eq_none (s : ModelState) (h : s.sorter = none) :
    clear_sorter s = (s, []) := by
  simp [clear_sorter, h]

lemma clear_sorter_eq_some (s : ModelState) (so : Sorter) (h : s.sorter = some so) :
    clear_sorter s = ({ s with sorter := none, sorting := false, items := [] },
      (if s.sorting = true then [Op.stopSort, Op.propNotify PropId.sorting] else []) ++
        (if s.items.isEmpty then [] else [Op.storeMutate])) := by
  simp [clear_sorter, h, clear_items_eq]

lemma create_items_eq_of_should (s : ModelState) (m : BackingModel)
    (hm : s.model = some m) (hss : should_sort s = true) :
    create_items s =
      ({ s with
          items := s.items ++
            m.items.enum.map (fun q => ({ item := q.2, position := q.1 } : SortItem)) },
        if m.items.isEmpty then [] else [Op.storeMutate]) := by
  simp [create_items, hss, hm]

lemma create_items_eq_of_not (s : ModelState) (hss : should_sort s = false) :
    create_items s = (s, []) := by
  simp [create_items, hss]

/-- C5 (amended): from any reachable state in which no sort session is
pending over an empty store, handling any valid event finalizes an in-flight
session before each structural store mutation, and never starts a session
while one is active. -/
theorem c5_session_mutation_discipline (s : ModelState) (e : Event)
    (h : Reachable s) (hv : validEvent s e = true)
    (hpend : s.sorting = true → s.items ≠ []) :
    traceSafe s.sorting (step s e).2 = true := by
  have hinv := reachable_storeInv s h
  cases e with
  | setModel m =>
    by_cases hsm : s.model = m
    · simp only [step, set_model, if_pos hsm]
      rfl
    · simp only [step, set_model, if_neg hsm]
      cases hm0 : s.model with
      | none =>
        have hsort : s.sorting = false := by
          by_contra hc
          have hc' : s.sorting = true := by revert hc; cases s.sorting <;> simp
          exact hpend hc' (hinv.2 (should_sort_of_model_none s hm0))
        cases m with
        | none => exact absurd hm0 hsm
        | some mm =>
          simp only [clear_model_eq_none s hm0, hsort]
          by_cases hss2 : should_sort
              (⟨some mm, s.sorter, s.items, false, s.alreadySorted⟩ : ModelState) = true
          · simp only [create_items_eq_of_should
                (⟨some mm, s.sorter, s.items, false, s.alreadySorted⟩ : ModelState)
                mm rfl hss2,
              resort_eq]
            rcases Bool.eq_false_or_eq_true s.sorting with hb9 | hb9 <;>
              first
              | (simp only [hb9]; split_ifs <;> rfl)
              | (split_ifs <;> rfl)
              | rfl
          · have hss2' : should_sort
                (⟨some mm, s.sorter, s.items, false, s.alreadySorted⟩ : ModelState) =
                false := by
              revert hss2
              cases should_sort
                (⟨some mm, s.sorter, s.items, false, s.alreadySorted⟩ : ModelState) <;> simp
            simp only [create_items_eq_of_not
                (⟨some mm, s.sorter, s.items, false, s.alreadySorted⟩ : ModelState) hss2',
              resort_eq]
            rcases Bool.eq_false_or_eq_true s.sorting with hb9 | hb9 <;>
              first
              | (simp only [hb9]; split_ifs <;> rfl)
              | (split_ifs <;> rfl)
              | rfl
      | some mm0 =>
        cases m with
        | none =>
          simp only [clear_model_eq_some s mm0 hm0]
          rcases Bool.eq_false_or_eq_true s.sorting with hb9 | hb9 <;>
            first
            | (simp only [hb9]; split_ifs <;> rfl)
            | (split_ifs <;> rfl)
            | rfl
        | some mm =>
          simp only [clear_model_eq_some s mm0 hm0]
          by_cases hss2 : should_sort
              (⟨some mm, s.sorter, [], false, s.alreadySorted⟩ : ModelState) = true
          · simp only [create_items_eq_of_should
                (⟨some mm, s.sorter, [], false, s.alreadySorted⟩ : ModelState) mm rfl hss2,
              resort_eq]
            rcases Bool.eq_false_or_eq_true s.sorting with hb9 | hb9 <;>
              first
              | (simp only [hb9]; split_ifs <;> rfl)
              | (split_ifs <;> rfl)
              | rfl
          · have hss2' : should_sort
                (⟨some mm, s.sorter, [], false, s.alreadySorted⟩ : ModelState) = false := by
              revert hss2
              cases should_sort
                (⟨some mm, s.sorter, [], false, s.alreadySorted⟩ : ModelState) <;> simp
            simp only [create_items_eq_of_not
                (⟨some mm, s.sorter, [], false, s.alreadySorted⟩ : ModelState) hss2',
              resort_eq]
            rcases Bool.eq_false_or_eq_true s.sorting with hb9 | hb9 <;>
              first
              | (simp only [hb9]; split_ifs <;> rfl)
              | (split_ifs <;> rfl)
              | rfl
  | setSorter so =>
    cases hso : s.sorter with
    | none =>
      cases so with
      | none =>
        simp only [step, set_sorter, clear_sorter_eq_none s hso]
        rcases Bool.eq_false_or_eq_true s.sorting with hb9 | hb9 <;>
          first
          | (simp only [hb9]; split_ifs <;> rfl)
          | (split_ifs <;> rfl)
          | rfl
      | some sorter =>
        simp only [step, set_sorter, clear_sorter_eq_none s hso, sorter_changed_cb]
        by_cases hord : sorter.hasOrder = true
        · simp only [hord, Bool.not_true]
          by_cases hi : s.items.isEmpty = true
          · have hsort : s.sorting = false := by
              by_contra hc
              have hc' : s.sorting = true := by revert hc; cases s.sorting <;> simp
              exact hpend hc' (List.isEmpty_iff.mp hi)
            simp only [hi, Bool.false_eq_true, if_false, if_true, hsort]
            by_cases hss2 : should_sort
                (⟨s.model, some sorter, s.items, false, s.alreadySorted⟩ : ModelState) = true
            · cases hm : s.model with
              | none =>
                rw [hm] at hss2
                rw [should_sort_of_model_none _ rfl] at hss2
                exact absurd hss2 (by simp)
              | some mm =>
                rw [hm] at hss2
                simp only [create_items_eq_of_should
                    (⟨some mm, some sorter, s.items, false, s.alreadySorted⟩ : ModelState)
                    mm rfl hss2,
                  resort_eq]
                rcases Bool.eq_false_or_eq_true s.sorting with hb9 | hb9 <;>
                  first
                  | (simp only [hb9]; split_ifs <;> rfl)
                  | (split_ifs <;> rfl)
                  | rfl
            · have hss2' : should_sort
                  (⟨s.model, some sorter, s.items, false, s.alreadySorted⟩ : ModelState) =
                  false := by
                revert hss2
                cases should_sort
                  (⟨s.model, some sorter, s.items, false,
                    s.alreadySorted⟩ : ModelState) <;> simp
              simp only [create_items_eq_of_not
                  (⟨s.model, some sorter, s.items, false, s.alreadySorted⟩ : ModelState)
                  hss2',
                resort_eq]
              rcases Bool.eq_false_or_eq_true s.sorting with hb9 | hb9 <;>
                first
                | (simp only [hb9]; split_ifs <;> rfl)
                | (split_ifs <;> rfl)
                | rfl
          · have hi' : s.items.isEmpty = false := by
              revert hi; cases s.items.isEmpty <;> simp
            simp only [hi', Bool.false_eq_true, if_false, resort_eq]
            rcases Bool.eq_false_or_eq_true s.sorting with hb9 | hb9 <;>
              first
              | (simp only [hb9]; split_ifs <;> rfl)
              | (split_ifs <;> rfl)
              | rfl
        · have hord' : sorter.hasOrder = false := by
            revert hord; cases sorter.hasOrder <;> simp
          simp only [hord', Bool.not_false, if_true, clear_items_eq, resort_eq]
          rcases Bool.eq_false_or_eq_true s.sorting with hb9 | hb9 <;>
            first
            | (simp only [hb9]; split_ifs <;> rfl)
            | (split_ifs <;> rfl)
            | rfl
    | some so0 =>
      cases so with
      | none =>
        simp only [step, set_sorter, clear_sorter_eq_some s so0 hso]
        rcases Bool.eq_false_or_eq_true s.sorting with hb9 | hb9 <;>
          first
          | (simp only [hb9]; split_ifs <;> rfl)
          | (split_ifs <;> rfl)
          | rfl
      | some sorter =>
        simp only [step, set_sorter, clear_sorter_eq_some s so0 hso, sorter_changed_cb]
        by_cases hord : sorter.hasOrder = true
        · simp only [hord, Bool.not_true]
          by_cases hss2 : should_sort
              (⟨s.model, some sorter, [], false, s.alreadySorted⟩ : ModelState) = true
          · cases hm : s.model with
            | none =>
              rw [hm] at hss2
              rw [should_sort_of_model_none _ rfl] at hss2
              exact absurd hss2 (by simp)
            | some mm =>
              rw [hm] at hss2
              simp only [create_items_eq_of_should
                  (⟨some mm, some sorter, [], false, s.alreadySorted⟩ : ModelState)
                  mm rfl hss2,
                resort_eq]
              rcases Bool.eq_false_or_eq_true s.sorting with hb9 | hb9 <;>
                first
                | (simp only [hb9]; split_ifs <;> rfl)
                | (split_ifs <;> rfl)
                | rfl
          · have hss2' : should_sort
                (⟨s.model, some sorter, [], false, s.alreadySorted⟩ : ModelState) = false := by
              revert hss2
              cases should_sort
                (⟨s.model, some sorter, [], false, s.alreadySorted⟩ : ModelState) <;> simp
            simp only [create_items_eq_of_not
                (⟨s.model, some sorter, [], false, s.alreadySorted⟩ : ModelState) hss2',
              resort_eq]
            rcases Bool.eq_false_or_eq_true s.sorting with hb9 | hb9 <;>
              first
              | (simp only [hb9]; split_ifs <;> rfl)
              | (split_ifs <;> rfl)
              | rfl
        · have hord' : sorter.hasOrder = false := by
            revert hord; cases sorter.hasOrder <;> simp
          simp only [hord', Bool.not_false, if_true, clear_items_eq, resort_eq]
          rcases Bool.eq_false_or_eq_true s.sorting with hb9 | hb9 <;>
            first
            | (simp only [hb9]; split_ifs <;> rfl)
            | (split_ifs <;> rfl)
            | rfl
  | sorterChanged b =>
    cases hso : s.sorter with
    | none =>
      simp only [step, hso]
      rfl
    | some so0 =>
      simp only [step, hso, sorter_changed_cb]
      by_cases hb : b = true
      · subst hb
        simp only [Bool.not_true]
        by_cases hi : s.items.isEmpty = true
        · have hsort : s.sorting = false := by
            by_contra hc
            have hc' : s.sorting = true := by revert hc; cases s.sorting <;> simp
            exact hpend hc' (List.isEmpty_iff.mp hi)
          simp only [hi, Bool.false_eq_true, if_false, if_true, hsort]
          by_cases hss2 : should_sort
              (⟨s.model, some { id := so0.id, hasOrder := true }, s.items, false,
                s.alreadySorted⟩ : ModelState) = true
          · cases hm : s.model with
            | none =>
              rw [hm] at hss2
              rw [should_sort_of_model_none _ rfl] at hss2
              exact absurd hss2 (by simp)
            | some mm =>
              rw [hm] at hss2
              simp only [create_items_eq_of_should
                  (⟨some mm, some { id := so0.id, hasOrder := true }, s.items, false,
                    s.alreadySorted⟩ : ModelState) mm rfl hss2,
                resort_eq]
              rcases Bool.eq_false_or_eq_true s.sorting with hb9 | hb9 <;>
                first
                | (simp only [hb9]; split_ifs <;> rfl)
                | (split_ifs <;> rfl)
                | rfl
          · have hss2' : should_sort
                (⟨s.model, some { id := so0.id, hasOrder := true }, s.items, false,
                  s.alreadySorted⟩ : ModelState) = false := by
              revert hss2
              cases should_sort
                (⟨s.model, some { id := so0.id, hasOrder := true }, s.items, false,
                  s.alreadySorted⟩ : ModelState) <;> simp
            simp only [create_items_eq_of_not
                (⟨s.model, some { id := so0.id, hasOrder := true }, s.items, false,
                  s.alreadySorted⟩ : ModelState) hss2',
              resort_eq]
            rcases Bool.eq_false_or_eq_true s.sorting with hb9 | hb9 <;>
              first
              | (simp only [hb9]; split_ifs <;> rfl)
              | (split_ifs <;> rfl)
              | rfl
        · have hi' : s.items.isEmpty = false := by
            revert hi; cases s.items.isEmpty <;> simp
          simp only [hi', Bool.false_eq_true, if_false, resort_eq]
          rcases Bool.eq_false_or_eq_true s.sorting with hb9 | hb9 <;>
            first
            | (simp only [hb9]; split_ifs <;> rfl)
            | (split_ifs <;> rfl)
            | rfl
      · have hb' : b = false := by revert hb; cases b <;> simp
        subst hb'
        simp only [Bool.not_false, if_true, clear_items_eq, resort_eq]
        rcases Bool.eq_false_or_eq_true s.sorting with hb9 | hb9 <;>
          first
          | (simp only [hb9]; split_ifs <;> rfl)
          | (split_ifs <;> rfl)
          | rfl
  | itemsChanged p rr new =>
    cases hm : s.model with
    | none =>
      simp only [step, hm]
      rfl
    | some m =>
      simp only [step, hm]
      by_cases hz : rr = 0 ∧ new.length = 0
      · rw [items_changed_cb_nop _ p rr new.length hz]
        rfl
      · by_cases hd : should_sort
            { s with model := some (applyBackingEdit m p rr new) } = false
        · rw [items_changed_cb_degraded _ p rr new.length hz hd]
          rfl
        · have hss : should_sort
              { s with model := some (applyBackingEdit m p rr new) } = true := by
            revert hd
            cases should_sort { s with model := some (applyBackingEdit m p rr new) } <;> simp
          by_cases hpos : 0 < new.length
          · rw [items_changed_cb_pos _ p rr new.length hss hpos]
            rcases Bool.eq_false_or_eq_true s.sorting with hb9 | hb9 <;>
              first
              | (simp only [hb9]; split_ifs <;> rfl)
              | (split_ifs <;> rfl)
              | rfl
          · have hlen : new.length = 0 := by omega
            have hrr : 0 < rr := by omega
            rw [hlen, items_changed_cb_zero _ p rr hss hrr]
            rcases Bool.eq_false_or_eq_true s.sorting with hb9 | hb9 <;>
              first
              | (simp only [hb9]; split_ifs <;> rfl)
              | (split_ifs <;> rfl)
              | rfl
  | sortTick ns more =>
    by_cases hs : s.sorting = true
    · simp only [step, hs, if_true, sort_cb]
      by_cases hmore : more = true
      · rw [if_pos hmore]
        rfl
      · have hmore' : more = false := by revert hmore; cases more <;> simp
        rw [hmore']
        simp only [Bool.false_eq_true, if_false]
        rw [stop_sorting_eq, hs]
        rfl
    · simp only [step]
      rw [if_neg hs]
      rfl

/-- Counterexample to C5 as stated: attaching a sorter with no model starts a
degenerate session over the empty store; attaching a model immediately
afterwards rebuilds the store (appending entries) while that session is still
scheduled, i.e. the store is mutated with a session active. -/
theorem c5_counterexample :
    validEvent initState (Event.setSorter (some { id := 1, hasOrder := true })) = true ∧
    Reachable (step initState (Event.setSorter (some { id := 1, hasOrder := true }))).1 ∧
    (step initState (Event.setSorter (some { id := 1, hasOrder := true }))).1.sorting = true ∧
    validEvent (step initState (Event.setSorter (some { id := 1, hasOrder := true }))).1
      (Event.setModel (some { id := 0, items := [7] })) = true ∧
    traceSafe (step initState (Event.setSorter (some { id := 1, hasOrder := true }))).1.sorting
      (step (step initState (Event.setSorter (some { id := 1, hasOrder := true }))).1
        (Event.setModel (some { id := 0, items := [7] }))).2 = false := by
  refine ⟨by decide, ?_, by decide, by decide, by decide⟩
  exact Reachable.next _ _ Reachable.init (by decide)

/-- Witness for the amended C5: a removal edit handled from a reachable
sorted state with a populated store keeps the mutation discipline. -/
theorem c5_session_mutation_discipline_witness :
    traceSafe (step (step initState (Event.setModel (some { id := 0, items := [5, 3] }))).1
        (Event.setSorter (some { id := 1, hasOrder := true }))).1.sorting
      (step (step (step initState (Event.setModel (some { id := 0, items := [5, 3] }))).1
          (Event.setSorter (some { id := 1, hasOrder := true }))).1
        (Event.itemsChanged 0 1 [])).2 = true :=
  c5_session_mutation_discipline
    (step (step initState (Event.setModel (some { id := 0, items := [5, 3] }))).1
      (Event.setSorter (some { id := 1, hasOrder := true }))).1
    (Event.itemsChanged 0 1 [])
    (Reachable.next _ _ (Reachable.next _ _ Reachable.init (by decide)) (by decide))
    (by decide) (by decide)

/-- A one-item sorted model about to receive a pure append. -/
def c3state : ModelState where
  model := some { id := 0, items := [10] }
  sorter := some { id := 1, hasOrder := true }
  items := [{ item := 10, position := 0 }]
  sorting := false
  alreadySorted := 0

/-- Counterexample to C3 as stated: after a pure append the handler emits the
notification (1, 2^32 - 1, 0) — the removed count wrapped around in unsigned
arithmetic — whose added range [1, 1 + 0) fails to cover view position 1,
where the appended item actually sits; the notified range is narrower than
the set of added view positions. -/
theorem c3_counterexample :
    validEvent c3state (Event.itemsChanged 1 0 [20]) = true ∧
    itemsChangedOps (step c3state (Event.itemsChanged 1 0 [20])).2 =
      [Op.itemsChanged 1 4294967295 0] ∧
    (step c3state (Event.itemsChanged 1 0 [20])).1.items =
      [{ item := 10, position := 0 }, { item := 20, position := 1 }] ∧
    ¬ ((1 : Nat) < 1 + 0) := by
  decide

/-- C3 (amended): for a removal-only edit handled while sorting is enabled
over a populated store, the emitted notification is exactly
(valid_start, n + removed, n) with n = store_length - valid_start -
valid_end computed without wrap-around, the bands are disjoint, and the
notification covers every changed view position: outside the notified range
the view's items are unchanged (the prefix in place, the suffix shifted by
the removed count).  For edits with added > 0 the same expressions are
emitted but evaluated with 32-bit wrap-around, and the range can fail to
cover the appended positions. -/
theorem c3_removal_notification (s : ModelState) (m : BackingModel) (p rr : Nat)
    (h : Reachable s) (hm : s.model = some m) (hss : should_sort s = true)
    (hval : p + rr ≤ m.items.length) (hrr : 0 < rr) (hsmall : m.items.length < U32) :
    itemsChangedOps (step s (Event.itemsChanged p rr [])).2 =
      [Op.itemsChanged (vstart p rr s.items)
        ((s.items.filterMap (survivorFn p rr 0)).length - vstart p rr s.items -
          vend p rr s.items + rr)
        ((s.items.filterMap (survivorFn p rr 0)).length - vstart p rr s.items -
          vend p rr s.items)] ∧
    (step s (Event.itemsChanged p rr [])).1.items = s.items.filterMap (survivorFn p rr 0) ∧
    (s.items.filterMap (survivorFn p rr 0)).length = s.items.length - rr ∧
    vstart p rr s.items + vend p rr s.items ≤ (s.items.filterMap (survivorFn p rr 0)).length ∧
    ((step s (Event.itemsChanged p rr [])).1.items.take (vstart p rr s.items)).map
        SortItem.item = (s.items.take (vstart p rr s.items)).map SortItem.item ∧
    ((step s (Event.itemsChanged p rr [])).1.items.drop
        ((s.items.filterMap (survivorFn p rr 0)).length - vend p rr s.items)).map
        SortItem.item =
      (s.items.drop (s.items.length - vend p rr s.items)).map SortItem.item := by
  have hinv := reachable_storeInv s h
  have hperm0 := hinv.1 hss
  have hL : get_n_items s = m.items.length := by simp [get_n_items, hm]
  rw [hL] at hperm0
  have hlen : s.items.length = m.items.length := by
    have := hperm0.length_eq
    simpa using this
  have hcount : s.items.countP (isRemoved p rr) = rr :=
    store_countP_removed p rr m.items.length s.items hperm0 hval
  have hsurvlen : (s.items.filterMap (survivorFn p rr 0)).length = s.items.length - rr := by
    rw [surv_length_eq, hcount]
  have hany : s.items.any (isRemoved p rr) = true := by
    rw [List.any_eq_true]
    have hex := List.countP_pos.mp (by omega : 0 < s.items.countP (isRemoved p rr))
    exact hex
  have hband := bands_le_surv p rr 0 s.items hany
  have hss' : should_sort { s with model := some (applyBackingEdit m p rr []) } = true := by
    rw [should_sort_of_model_some _ (applyBackingEdit m p rr []) rfl]
    rw [should_sort_of_model_some s m hm] at hss
    exact hss
  have hnN : notifN p rr 0 s.items =
      (s.items.filterMap (survivorFn p rr 0)).length - vstart p rr s.items -
        vend p rr s.items := by
    unfold notifN
    rw [Nat.add_zero]
    have h1 : sub32 (s.items.filterMap (survivorFn p rr 0)).length (vstart p rr s.items) =
        (s.items.filterMap (survivorFn p rr 0)).length - vstart p rr s.items :=
      sub32_of_le _ _ (by omega) (by omega)
    rw [h1, sub32_of_le _ _ (by omega) (by omega)]
  have hnR : notifRemoved p rr 0 s.items =
      (s.items.filterMap (survivorFn p rr 0)).length - vstart p rr s.items -
        vend p rr s.items + rr := by
    unfold notifRemoved
    rw [hnN, sub32_of_le _ _ (Nat.zero_le _) (by omega), Nat.sub_zero,
      add32_of_lt _ _ (by omega)]
  have hstep : (step s (Event.itemsChanged p rr [])).1.items =
      s.items.filterMap (survivorFn p rr 0) := by
    simp only [step, hm, show (([] : List Nat)).length = 0 from rfl,
      items_changed_cb_zero _ p rr hss' hrr]
  have hops : itemsChangedOps (step s (Event.itemsChanged p rr [])).2 =
      [Op.itemsChanged (vstart p rr s.items) (notifRemoved p rr 0 s.items)
        (notifN p rr 0 s.items)] := by
    simp only [step, hm, show (([] : List Nat)).length = 0 from rfl,
      items_changed_cb_zero _ p rr hss' hrr]
    rcases Bool.eq_false_or_eq_true s.sorting with hb | hb <;>
      simp [itemsChangedOps, hb]
  refine ⟨?_, hstep, hsurvlen, hband, ?_, ?_⟩
  · rw [hops, hnN, hnR]
  · rw [hstep]
    exact surv_take_vstart p rr 0 s.items
  · rw [hstep]
    exact surv_drop_vend p rr 0 s.items

/-- The reachable state obtained by attaching the two-item model [10, 20]
and an ordering sorter. -/
def c3wstate : ModelState :=
  (step (step initState (Event.setModel (some { id := 0, items := [10, 20] }))).1
    (Event.setSorter (some { id := 1, hasOrder := true }))).1

/-- Witness for the amended C3: removing the first backing item. -/
theorem c3_removal_notification_witness :
    itemsChangedOps (step c3wstate (Event.itemsChanged 0 1 [])).2 =
      [Op.itemsChanged (vstart 0 1 c3wstate.items)
        ((c3wstate.items.filterMap (survivorFn 0 1 0)).length - vstart 0 1 c3wstate.items -
          vend 0 1 c3wstate.items + 1)
        ((c3wstate.items.filterMap (survivorFn 0 1 0)).length - vstart 0 1 c3wstate.items -
          vend 0 1 c3wstate.items)] ∧
    (step c3wstate (Event.itemsChanged 0 1 [])).1.items =
      c3wstate.items.filterMap (survivorFn 0 1 0) ∧
    (c3wstate.items.filterMap (survivorFn 0 1 0)).length = c3wstate.items.length - 1 ∧
    vstart 0 1 c3wstate.items + vend 0 1 c3wstate.items ≤
      (c3wstate.items.filterMap (survivorFn 0 1 0)).length ∧
    ((step c3wstate (Event.itemsChanged 0 1 [])).1.items.take
        (vstart 0 1 c3wstate.items)).map SortItem.item =
      (c3wstate.items.take (vstart 0 1 c3wstate.items)).map SortItem.item ∧
    ((step c3wstate (Event.itemsChanged 0 1 [])).1.items.drop
        ((c3wstate.items.filterMap (survivorFn 0 1 0)).length - vend 0 1 c3wstate.items)).map
        SortItem.item =
      (c3wstate.items.drop (c3wstate.items.length - vend 0 1 c3wstate.items)).map
        SortItem.item :=
  c3_removal_notification c3wstate { id := 0, items := [10, 20] } 0 1
    (Reachable.next _ _ (Reachable.next _ _ Reachable.init (by decide)) (by decide))
    (by decide) (by decide) (by decide) (by decide) (by decide)
